import Mathlib

/-!
# ForecastPro — transaction ingestion & reconciliation engine

A shallow embedding of the TypeScript sources of the ForecastPro bank-statement
ingestion engine, together with proofs about its balance invariant,
deduplication behaviour, CSV tokenizer/interpreter and Tink (Open-Banking)
normalizer.

Modelling conventions:
* JavaScript `number` values are modelled as exact rationals (`ℚ`); the sources
  round all monetary values to 2 decimal places through the `Money` value object.
* Strings are processed on their underlying character lists with structural
  recursions mirroring the character-level loops of the sources.
* The SQL database is a record `DB` of in-memory tables; Lucid ORM queries used
  by the repositories become list operations on those tables.
* `async` methods that can throw become `Option`/`Except`-valued functions; the
  ambient nondeterminism used by the sources (`Date.now()`, `Math.random()`,
  row-level persistence failures) is passed in explicitly as arguments.
* The 32-hex-character truncated SHA-256 fingerprints of `HashGenerator` are
  modelled as the mode-tagged input data of the digest (the digest itself is
  idealized as injective, the standard collision-freeness assumption).
-/

namespace ForecastPro

/-- Transaction type: the string enum `"debit" | "credit"` of the sources. -/
inductive TransactionType where
  | debit
  | credit
deriving DecidableEq, Repr

/-- JavaScript `Math.round`: rounds half toward positive infinity. -/
def jsRound (q : ℚ) : ℤ := ⌊q + 1/2⌋

/-- Rounding to 2 decimal places, `Math.round(amount * 100) / 100`
    (the `Money` constructor, `src/unnamed/part_007` line 11). -/
def round2 (q : ℚ) : ℚ := (jsRound (q * 100) : ℚ) / 100

/-- A rational representable with at most 2 decimal places ("valid decimal input"
    in the spec's sense: an exact number of cents). -/
def IsCents (q : ℚ) : Prop := ∃ n : ℤ, q = (n : ℚ) / 100

/-- JavaScript `String.prototype.toUpperCase` restricted to ASCII
    (all currency codes in the sources are ASCII). -/
def jsToUpperCase (s : String) : String := String.mk (s.data.map Char.toUpper)

/-- Value object for an amount of money (`src/unnamed/part_007`). -/
structure Money where
  amount : ℚ
  currency : String
deriving DecidableEq, Repr

/-- The `Money` constructor: rounds to 2 decimals, uppercases the currency. -/
def Money.make (amount : ℚ) (currency : String) : Money :=
  { amount := round2 amount, currency := jsToUpperCase currency }

/-- `Money.add`; `assertSameCurrency` throwing is modelled as `none`. -/
def Money.add (m o : Money) : Option Money :=
  if m.currency = o.currency then some (Money.make (m.amount + o.amount) m.currency)
  else none

/-- `Money.subtract`; `assertSameCurrency` throwing is modelled as `none`. -/
def Money.subtract (m o : Money) : Option Money :=
  if m.currency = o.currency then some (Money.make (m.amount - o.amount) m.currency)
  else none

/-- A calendar date (Luxon `DateTime` restricted to its date part). -/
structure CalDate where
  year : Nat
  month : Nat
  day : Nat
deriving DecidableEq, Repr

/-- A date value: either a parsed calendar date (CSV path) or the raw ISO
    date string handed over by the Tink feed. -/
inductive DateVal where
  | cal (d : CalDate)
  | iso (s : String)
deriving DecidableEq, Repr

/-- The 32-hex-character truncated SHA-256 fingerprint of `HashGenerator`
    (`src/app/infrastructure/utils/hash_generator.ts`), modelled as the
    mode-tagged data that the source feeds to the digest:
    * `manual`:  `date|label|amount|timestamp|random`
    * `imported`: `date|label|amount|rowIndex|timestamp|random`
    * `tink`:    `date|amount|description|type` (no timestamp, no random). -/
inductive Hash where
  | manual (date : String) (label : String) (amount : ℚ)
      (timestamp : Nat) (random : String)
  | imported (date : DateVal) (label : String) (amount : ℚ) (rowIndex : Nat)
      (timestamp : Nat) (random : String)
  | tink (date : String) (amount : ℚ) (description : String) (ttype : TransactionType)
deriving DecidableEq, Repr

namespace HashGenerator

/-- `HashGenerator.forManualTransaction`: includes wall-clock timestamp and a
    random suffix, hence non-deterministic; both are explicit arguments here. -/
def forManualTransaction (date : String) (label : String) (amount : ℚ)
    (timestamp : Nat) (random : String) : Hash :=
  .manual date label amount timestamp random

/-- `HashGenerator.forImportedTransaction`: row index plus wall-clock timestamp
    and random suffix (non-deterministic by design, see spec §4.3). -/
def forImportedTransaction (date : DateVal) (label : String) (amount : ℚ)
    (rowIndex : Nat) (timestamp : Nat) (random : String) : Hash :=
  .imported date label amount rowIndex timestamp random

/-- `HashGenerator.forTinkTransaction`: deterministic, a function of
    `(date, amount, description, type)` only. -/
def forTinkTransaction (date : String) (amount : ℚ) (description : String)
    (ttype : TransactionType) : Hash :=
  .tink date amount description ttype

end HashGenerator

/-- A persisted transaction row (`src/app/models/transaction.ts` as created by
    `TransactionRepository.create`). -/
structure StoredTransaction where
  accountId : Nat
  importBatchId : Option Nat
  date : DateVal
  label : String
  amount : ℚ
  type : TransactionType
  merchant : Option String
  category : Option String
  paymentMethod : Option String
  hash : Hash
deriving DecidableEq, Repr

/-- A persisted account row (`src/app/models/account.ts`). -/
structure Account where
  id : Nat
  name : String
  currency : String
  isDefault : Bool
  initialBalance : ℚ
  balance : ℚ
deriving DecidableEq, Repr

/-- Import batch status enum. -/
inductive ImportStatus where
  | pending
  | processing
  | completed
  | failed
deriving DecidableEq, Repr

/-- A persisted import batch row (`src/app/models/import_batch.ts`). -/
structure ImportBatch where
  id : Nat
  accountId : Nat
  filename : String
  status : ImportStatus
  rowsImported : Nat
  rowsSkipped : Nat
  errorMessage : Option String
deriving DecidableEq, Repr

/-- The SQL database visible to the repositories, as in-memory tables.
    `nextAccountId`/`nextBatchId` model the auto-increment primary keys. -/
structure DB where
  accounts : List Account
  transactions : List StoredTransaction
  batches : List ImportBatch
  nextAccountId : Nat
  nextBatchId : Nat
deriving Repr

namespace AccountRepository

/-- `AccountRepository.findById`. -/
def findById (db : DB) (id : Nat) : Option Account :=
  db.accounts.find? (fun a => a.id == id)

/-- `AccountRepository.updateBalance`: sets `balance` on the row, `none` when
    the account does not exist (the caller then throws). -/
def updateBalance (db : DB) (id : Nat) (balance : ℚ) : Option DB :=
  match findById db id with
  | none => none
  | some _ =>
    some { db with
      accounts := db.accounts.map
        (fun a => if a.id == id then { a with balance := balance } else a) }

end AccountRepository

namespace TransactionRepository

/-- `TransactionRepository.findByHash` (dedup lookup). -/
def findByHash (db : DB) (h : Hash) : Option StoredTransaction :=
  db.transactions.find? (fun tx => tx.hash == h)

/-- `TransactionRepository.sumByType`: `SUM(amount)` over one account and type
    (`?? 0` for an empty result set). -/
def sumByType (db : DB) (accountId : Nat) (t : TransactionType) : ℚ :=
  ((db.transactions.filter
      (fun tx => tx.accountId == accountId && tx.type == t)).map
    (fun tx => tx.amount)).sum

/-- `TransactionRepository.create`: inserts a row. -/
def createTx (db : DB) (tx : StoredTransaction) : DB :=
  { db with transactions := db.transactions ++ [tx] }

end TransactionRepository

namespace ImportBatchRepository

/-- `ImportBatchRepository.create`: inserts a batch row with zero counters and
    the fresh auto-increment id. -/
def createBatch (db : DB) (accountId : Nat) (filename : String)
    (status : ImportStatus) : DB × ImportBatch :=
  let b : ImportBatch :=
    { id := db.nextBatchId, accountId := accountId, filename := filename,
      status := status, rowsImported := 0, rowsSkipped := 0, errorMessage := none }
  ({ db with batches := db.batches ++ [b], nextBatchId := db.nextBatchId + 1 }, b)

/-- `ImportBatchRepository.findById`. -/
def findBatch (db : DB) (id : Nat) : Option ImportBatch :=
  db.batches.find? (fun b => b.id == id)

/-- `ImportBatchRepository.markCompleted`: sets status `completed` and both
    counters on the row with the given primary key. -/
def markCompleted (db : DB) (id : Nat) (imported skipped : Nat) : DB :=
  { db with
    batches := db.batches.map
      (fun b =>
        if b.id == id then
          { b with status := .completed, rowsImported := imported,
                   rowsSkipped := skipped }
        else b) }

end ImportBatchRepository

namespace BalanceCalculator

/-- `BalanceCalculator.calculateForAccount`:
    `initialBalance + credits − |debits|` as `Money` arithmetic; `none` models
    the `Compte non trouvé` exception. -/
def calculateForAccount (db : DB) (accountId : Nat) : Option Money :=
  match AccountRepository.findById db accountId with
  | none => none
  | some account =>
    let initialBalance := Money.make account.initialBalance account.currency
    let credits :=
      Money.make (TransactionRepository.sumByType db accountId .credit) account.currency
    let debits :=
      Money.make |TransactionRepository.sumByType db accountId .debit| account.currency
    match initialBalance.add credits with
    | none => none
    | some s => s.subtract debits

/-- `BalanceCalculator.recalculateForAccount`: computes the balance, persists it
    via `AccountRepository.updateBalance` and returns the written value. -/
def recalculateForAccount (db : DB) (accountId : Nat) : Option (DB × ℚ) :=
  match calculateForAccount db accountId with
  | none => none
  | some newBalance =>
    match AccountRepository.updateBalance db accountId newBalance.amount with
    | none => none
    | some db' => some (db', newBalance.amount)

end BalanceCalculator

/-! ## String utilities

JavaScript string operations used by the sources, implemented as structural
recursions over character lists (Lean's built-in `String` functions do not
reduce in the kernel). -/

/-- Both-ends whitespace strip on a character list (JS `String.prototype.trim`). -/
def trimChars (cs : List Char) : List Char :=
  (((cs.dropWhile Char.isWhitespace).reverse).dropWhile Char.isWhitespace).reverse

/-- JS `String.prototype.trim`. -/
def trimString (s : String) : String := String.mk (trimChars s.data)

/-- JS `s.split("T")[0]` — everything before the first `'T'`
    (`HashGenerator.normalizeDate` on an ISO date-time string). -/
def normalizeDateString (s : String) : String :=
  String.mk (s.data.takeWhile (fun c => c ≠ 'T'))

/-- Collapse every whitespace run to a single space:
    JS `label.replace(/\s+/g, " ")`. -/
def squashWs : List Char → List Char
  | [] => []
  | [c] => if c.isWhitespace then [' '] else [c]
  | c1 :: c2 :: rest =>
    if c1.isWhitespace && c2.isWhitespace then squashWs (c2 :: rest)
    else (if c1.isWhitespace then ' ' else c1) :: squashWs (c2 :: rest)

/-- `label.replace(/\s+/g, " ").trim()` — label cleanup of the row interpreter. -/
def cleanLabelString (label : String) : String :=
  trimString (String.mk (squashWs label.data))

/-- List-of-chars starts-with test. -/
def startsWithChars : List Char → List Char → Bool
  | [], _ => true
  | _ :: _, [] => false
  | a :: as, b :: bs => a == b && startsWithChars as bs

/-- JS `String.prototype.includes` on character lists. -/
def containsChars (hay needle : List Char) : Bool :=
  match hay with
  | [] => needle.isEmpty
  | _ :: rest => startsWithChars needle hay || containsChars rest needle

/-- Digit run to a natural number (base 10). -/
def digitsToNat (ds : List Char) : Nat :=
  ds.foldl (fun n c => 10 * n + (c.toNat - 48)) 0

/-! ## Tink transformer (`src/app/infrastructure/external/tink/tink_transformer.ts`) -/

/-- The Tink API minor-unit amount encoding. The API supplies `unscaledValue`
    and `scale` as decimal integer strings which the source decodes with
    `parseInt(·, 10)`; the parsed integers are taken here directly (ill-formed,
    `NaN`-producing strings are outside the modelled scope). -/
structure TinkAmount where
  unscaledValue : Int
  scale : Nat
deriving DecidableEq, Repr

/-- A raw Tink transaction payload (`TinkTransactionRaw`), restricted to the
    fields the transformer reads. -/
structure TinkTransactionRaw where
  id : String
  amount : TinkAmount
  descriptionOriginal : String
  descriptionDisplay : Option String
  dateBooked : String
deriving DecidableEq, Repr

/-- The transformer's canonical output (`TinkTransactionData`). -/
structure TinkTransactionData where
  externalId : String
  date : String
  amount : ℚ
  description : String
  type : TransactionType
deriving DecidableEq, Repr

/-- JS `a || b` on an optional string: an absent or empty `display` description
    falls back to the `original` one. -/
def jsOrElse (o : Option String) (dflt : String) : String :=
  match o with
  | some s => if s = "" then dflt else s
  | none => dflt

namespace TinkTransformer

/-- `TinkTransformer.parseAmount`: `unscaledValue / 10^scale`. -/
def parseAmount (amount : TinkAmount) : ℚ :=
  (amount.unscaledValue : ℚ) / 10 ^ amount.scale

/-- `TinkTransformer.transformTransaction`: decodes the amount, derives the
    type from its sign (`amount >= 0 → credit`) and stores the absolute value. -/
def transformTransaction (raw : TinkTransactionRaw) : TinkTransactionData :=
  let amount := parseAmount raw.amount
  let description := jsOrElse raw.descriptionDisplay raw.descriptionOriginal
  let type : TransactionType := if 0 ≤ amount then .credit else .debit
  { externalId := raw.id, date := raw.dateBooked, amount := |amount|,
    description := trimString description, type := type }

end TinkTransformer

/-! ## Transaction service (`src/unnamed/part_004`) -/

/-- The parsed-transaction shape handed to `importBatch`
    (`ParsedTransactionData` of `#domain/types`). -/
structure ParsedTransactionData where
  date : DateVal
  label : String
  amount : ℚ
  type : TransactionType
  merchant : Option String
  paymentMethod : Option String
  hash : Hash
  externalId : Option String := none
deriving DecidableEq, Repr

/-- The import result contract `{imported, skipped, errors, batchId}`. -/
structure ImportResult where
  imported : Nat
  skipped : Nat
  errors : List String
  batchId : Nat
deriving DecidableEq, Repr

/-- The ambient nondeterminism of one import call: wall-clock values used for
    hashes and filenames, and the per-iteration persistence-failure oracle for
    the row-creation `try/catch` of the import loop. -/
structure ImportEnv where
  timestamp : Nat
  random : String
  today : String
  createFails : Nat → Bool

/-- The DTO of `TransactionService.create`. -/
structure CreateTransactionDto where
  date : String
  label : String
  amount : ℚ
  type : TransactionType
  merchant : Option String := none
  category : Option String := none
  paymentMethod : Option String := none
deriving DecidableEq, Repr

/-- Errors thrown by `TransactionService.create`: the distinct
    `DuplicateTransactionError`, or the generic `Error` raised when the balance
    recalculation cannot find the account. -/
inductive CreateError where
  | duplicateTransaction
  | accountNotFound
deriving DecidableEq, Repr

namespace TransactionService

/-- `TransactionService.create`: signs the amount from the type, computes the
    manual-mode fingerprint, rejects duplicates with `DuplicateTransactionError`
    before writing anything, otherwise inserts and recalculates the balance.
    Returns the thrown error or the created row, together with the database
    state at return/throw time. -/
def create (db : DB) (accountId : Nat) (data : CreateTransactionDto)
    (timestamp : Nat) (random : String) :
    Except CreateError StoredTransaction × DB :=
  let amount := if data.type = .credit then |data.amount| else -|data.amount|
  let hash := HashGenerator.forManualTransaction
    (normalizeDateString data.date) data.label amount timestamp random
  match TransactionRepository.findByHash db hash with
  | some _ => (.error .duplicateTransaction, db)
  | none =>
    let tx : StoredTransaction :=
      { accountId := accountId, importBatchId := none,
        date := .iso data.date, label := data.label, amount := amount,
        type := data.type, merchant := data.merchant, category := data.category,
        paymentMethod := data.paymentMethod, hash := hash }
    let db1 := TransactionRepository.createTx db tx
    match BalanceCalculator.recalculateForAccount db1 accountId with
    | none => (.error .accountNotFound, db1)
    | some (db2, _) => (.ok tx, db2)

/-- Conversion of one parsed transaction to the row inserted by the import loop. -/
def toStored (accountId batchId : Nat) (txData : ParsedTransactionData) :
    StoredTransaction :=
  { accountId := accountId, importBatchId := some batchId, date := txData.date,
    label := txData.label, amount := txData.amount, type := txData.type,
    merchant := txData.merchant, category := none,
    paymentMethod := txData.paymentMethod, hash := txData.hash }

/-- The `for (const txData of transactions)` loop of `importBatch`: dedup by
    hash (`skipped`), insert (`imported`), capture row-level persistence
    failures (`errors`) and continue. `i` is the iteration counter feeding the
    failure oracle. -/
def runImport (env : ImportEnv) (accountId batchId : Nat) :
    DB → Nat → Nat → Nat → List String → List ParsedTransactionData →
    DB × Nat × Nat × List String
  | db, _, imported, skipped, errors, [] => (db, imported, skipped, errors)
  | db, i, imported, skipped, errors, txData :: rest =>
    match TransactionRepository.findByHash db txData.hash with
    | some _ =>
      runImport env accountId batchId db (i + 1) imported (skipped + 1) errors rest
    | none =>
      if env.createFails i then
        runImport env accountId batchId db (i + 1) imported skipped
          (errors ++ ["Erreur inconnue"]) rest
      else
        runImport env accountId batchId
          (TransactionRepository.createTx db (toStored accountId batchId txData))
          (i + 1) (imported + 1) skipped errors rest

/-- The state-and-counters part of `importBatch`: creates the batch in
    `processing` (its id is the fresh `db.nextBatchId`), runs the dedup/insert
    loop, and marks the batch `completed` with the loop counters. Returns the
    updated database together with `(imported, skipped, errors)`. -/
def importBatchState (db : DB) (accountId : Nat) (filename : String)
    (transactions : List ParsedTransactionData) (env : ImportEnv) :
    DB × Nat × Nat × List String :=
  let p := ImportBatchRepository.createBatch db accountId filename .processing
  let r := runImport env accountId p.2.id p.1 0 0 0 [] transactions
  (ImportBatchRepository.markCompleted r.1 p.2.id r.2.1 r.2.2.1, r.2)

/-- `TransactionService.importBatch`: the batch/loop stage above, then an
    unconditional balance recalculation. `none` models the exception propagated
    when the account does not exist; the returned `batchId` is the id of the
    created batch, i.e. `db.nextBatchId`. -/
def importBatch (db : DB) (accountId : Nat) (filename : String)
    (transactions : List ParsedTransactionData) (env : ImportEnv) :
    Option (DB × ImportResult) :=
  let s := importBatchState db accountId filename transactions env
  (BalanceCalculator.recalculateForAccount s.1 accountId).map
    (fun p4 => (p4.1, { imported := s.2.1, skipped := s.2.2.1,
                        errors := s.2.2.2, batchId := db.nextBatchId }))

/-- `TransactionService.extractMerchant` — merchant heuristic over the feed
    description. The source strips date/card-number/prefix-word patterns with
    regexes before the trim/length gate; no verified claim depends on the
    merchant field, so the regex replacements are elided and only the
    trim / length-gate / 100-character-cap structure is kept. -/
def extractMerchant (description : String) : Option String :=
  let cleaned := trimChars description.data
  if 2 < cleaned.length then some (String.mk (cleaned.take 100)) else none

/-- The per-transaction conversion inside `importFromTink`: re-signs the
    absolute feed amount from the type, computes the deterministic Tink
    fingerprint, and keeps the external id. -/
def tinkToParsed (tx : TinkTransactionData) : ParsedTransactionData :=
  { date := .iso tx.date, label := tx.description,
    amount := if tx.type = .credit then tx.amount else -tx.amount,
    type := tx.type,
    merchant := extractMerchant tx.description,
    paymentMethod := none,
    hash := HashGenerator.forTinkTransaction tx.date tx.amount tx.description tx.type,
    externalId := some tx.externalId }

/-- `TransactionService.importFromTink`: converts the feed transactions and
    delegates to `importBatch` under a `tink_sync_<date>` filename. -/
def importFromTink (db : DB) (accountId : Nat)
    (transactions : List TinkTransactionData) (env : ImportEnv) :
    Option (DB × ImportResult) :=
  importBatch db accountId ("tink_sync_" ++ env.today)
    (transactions.map tinkToParsed) env

end TransactionService

/-! ## CSV parser
(`CsvParser` in `src/app/infrastructure/external/tink/tink_api_client.ts`,
identically `CsvParserService` in `src/unnamed/part_002`) -/

namespace CsvParser

/-- The tokenizer state: emitted rows, the row and field being accumulated, and
    the in-quotes flag. -/
structure ScanState where
  rows : List (List String)
  currentRow : List String
  currentField : List Char
  inQuotes : Bool
deriving Repr

/-- `currentRow.push(currentField.trim()); currentField = ""`. -/
def pushField (st : ScanState) : ScanState :=
  { st with currentRow := st.currentRow ++ [String.mk (trimChars st.currentField)],
            currentField := [] }

/-- Row emission on an unquoted newline: push the pending field, emit the row
    unless every field is empty, reset row and field. -/
def pushRow (st : ScanState) : ScanState :=
  let st1 := pushField st
  { st1 with
    rows := st1.rows ++
      (if st1.currentRow.any (fun f => f.length > 0) then [st1.currentRow] else []),
    currentRow := [] }

/-- The character scan loop of `parseRows`: `"` toggles quoting, `""` inside
    quotes is a literal quote (consuming both characters), `;` ends a field and
    `\n` ends a row only outside quotes. -/
def scanChars : ScanState → List Char → ScanState
  | st, [] => st
  | st, c :: rest =>
    if st.inQuotes then
      if c = '"' then
        match h : rest with
        | '"' :: rest2 =>
          scanChars { st with currentField := st.currentField ++ ['"'] } rest2
        | _ => scanChars { st with inQuotes := false } rest
      else scanChars { st with currentField := st.currentField ++ [c] } rest
    else
      if c = '"' then scanChars { st with inQuotes := true } rest
      else if c = ';' then scanChars (pushField st) rest
      else if c = '\n' then scanChars (pushRow st) rest
      else scanChars { st with currentField := st.currentField ++ [c] } rest
termination_by _ cs => cs.length
decreasing_by all_goals ((try subst h); simp only [List.length_cons]; omega)

/-- `CsvParser.parseRows`: scan the content, then flush the last row when the
    input does not end in a newline. -/
def parseRows (content : String) : List (List String) :=
  let final := scanChars ⟨[], [], [], false⟩ content.data
  if final.currentField ≠ [] ∨ final.currentRow ≠ [] then (pushRow final).rows
  else final.rows

/-- Newline normalization done by `parse` before scanning:
    `content.replace(/\r\n/g, "\n").replace(/\r/g, "\n")`. -/
def normCRLF : List Char → List Char
  | [] => []
  | '\r' :: '\n' :: rest => '\n' :: normCRLF rest
  | '\r' :: rest => '\n' :: normCRLF rest
  | c :: rest => c :: normCRLF rest

/-- Characters kept by the amount cleaner: digits, comma, period, minus
    (`value.replace(/[^\d,.-]/g, "")`). -/
def keepAmountChar (c : Char) : Bool :=
  c.isDigit || c == ',' || c == '.' || c == '-'

/-- JS `String.prototype.replace(",", ".")`: replaces only the first comma. -/
def replaceFirstComma : List Char → List Char
  | [] => []
  | c :: rest => if c = ',' then '.' :: rest else c :: replaceFirstComma rest

/-- JS `Number.parseFloat` on the cleaned character list (alphabet: digits,
    `.`, `-`, stray commas): optional leading minus, integer digits, optional
    fraction after a period; parsing stops at the first unusable character;
    `none` is `NaN` (no digit consumed). Exponents cannot occur because the
    cleaner removed every letter. -/
def parseFloatChars (cs : List Char) : Option ℚ :=
  let p := match cs with
    | '-' :: rest => (true, rest)
    | _ => (false, cs)
  let intDigits := p.2.takeWhile Char.isDigit
  let rest1 := p.2.dropWhile Char.isDigit
  let fracDigits := match rest1 with
    | '.' :: r => r.takeWhile Char.isDigit
    | _ => []
  if intDigits.isEmpty && fracDigits.isEmpty then none
  else
    let v : ℚ := (digitsToNat intDigits : ℚ) +
      (digitsToNat fracDigits : ℚ) / 10 ^ fracDigits.length
    some (if p.1 then -v else v)

/-- `CsvParser.parseAmount`: blank or unparseable fields yield `0`, never an
    error; keeps digits/comma/period/minus, then the first comma becomes the
    decimal point. -/
def parseAmount (value : String) : ℚ :=
  if trimChars value.data = [] then 0
  else
    match parseFloatChars (replaceFirstComma (value.data.filter keepAmountChar)) with
    | none => 0
    | some q => q

/-- Gregorian leap year. -/
def isLeapYear (y : Nat) : Bool :=
  (y % 4 == 0 && y % 100 != 0) || y % 400 == 0

/-- Days in a calendar month. -/
def daysInMonth (y m : Nat) : Nat :=
  if m == 2 then (if isLeapYear y then 29 else 28)
  else if m == 4 || m == 6 || m == 9 || m == 11 then 30
  else 31

/-- `DateUtils.parseFromFrenchFormat`: Luxon `DateTime.fromFormat(s, "dd/MM/yyyy")`
    — exactly two day digits, two month digits, four year digits, and the
    result must be a real calendar date. -/
def parseFrenchDate (s : String) : Option CalDate :=
  match s.data with
  | [d1, d2, s1, m1, m2, s2, y1, y2, y3, y4] =>
    if s1 = '/' ∧ s2 = '/' ∧ d1.isDigit ∧ d2.isDigit ∧ m1.isDigit ∧ m2.isDigit ∧
        y1.isDigit ∧ y2.isDigit ∧ y3.isDigit ∧ y4.isDigit then
      let day := digitsToNat [d1, d2]
      let month := digitsToNat [m1, m2]
      let year := digitsToNat [y1, y2, y3, y4]
      if 1 ≤ month ∧ month ≤ 12 ∧ 1 ≤ day ∧ day ≤ daysInMonth year month then
        some ⟨year, month, day⟩
      else none
    else none
  | _ => none

/-- `CsvParser.extractDetails`: payment-method detection by keyword inclusion
    on the upper-cased label, in source priority order. The merchant regex
    captures are elided (`none`): no verified claim depends on the merchant
    field. Returns `(merchant, paymentMethod)`. -/
def extractDetails (label : String) : Option String × Option String :=
  let upperLabel := jsToUpperCase label
  let paymentMethod :=
    if containsChars upperLabel.data "PAIEMENT PAR CARTE".data then some "carte"
    else if containsChars upperLabel.data "PRELEVEMENT".data then some "prelevement"
    else if containsChars upperLabel.data "VIREMENT".data then some "virement"
    else if containsChars upperLabel.data "RETRAIT".data then some "retrait"
    else none
  (none, paymentMethod)

/-- Assembly of the parsed transaction in the two non-null branches of
    `parseRow`: label cleanup, heuristic details, imported-row fingerprint. -/
def buildRow (date : CalDate) (label : String) (amount : ℚ)
    (type : TransactionType) (rowIndex timestamp : Nat) (random : String) :
    ParsedTransactionData :=
  let cleanLabel := cleanLabelString label
  let details := extractDetails cleanLabel
  { date := .cal date, label := cleanLabel, amount := amount, type := type,
    merchant := details.1, paymentMethod := details.2,
    hash := HashGenerator.forImportedTransaction (.cal date) cleanLabel amount
      rowIndex timestamp random }

/-- `CsvParser.parseRow`: empty date or label → row silently skipped (`ok none`);
    invalid date → row-scoped `Date invalide` error; debit > 0 → negative
    amount of type debit, else credit > 0 → positive amount of type credit,
    else skipped. -/
def parseRow (fields : List String) (rowIndex : Nat) (timestamp : Nat)
    (random : String) : Except String (Option ParsedTransactionData) :=
  let dateStr := fields.getD 0 ""
  let label := fields.getD 1 ""
  let debitStr := fields.getD 2 ""
  let creditStr := fields.getD 3 ""
  if dateStr = "" ∨ label = "" then .ok none
  else
    match parseFrenchDate dateStr with
    | none => .error ("Date invalide: " ++ dateStr)
    | some date =>
      let debit := parseAmount debitStr
      let credit := parseAmount creditStr
      if 0 < debit then
        .ok (some (buildRow date label (-debit) .debit rowIndex timestamp random))
      else if 0 < credit then
        .ok (some (buildRow date label credit .credit rowIndex timestamp random))
      else .ok none

/-- Parse outcome `{transactions, errors}`. -/
structure ParseResult where
  transactions : List ParsedTransactionData
  errors : List String
deriving Repr

/-- The `for (let i = 1; ...)` body of `parse`: rows shorter than 4 fields are
    skipped, row errors are recorded as `Ligne <i+1>: <message>` and parsing
    continues. `i` is the index of the first row of the list. -/
def parseBody (timestamp : Nat) (random : String) :
    Nat → List (List String) → List ParsedTransactionData × List String
  | _, [] => ([], [])
  | i, row :: rest =>
    let acc := parseBody timestamp random (i + 1) rest
    if row.length < 4 then acc
    else
      match parseRow row i timestamp random with
      | .ok (some t) => (t :: acc.1, acc.2)
      | .ok none => acc
      | .error msg => (acc.1, ("Ligne " ++ toString (i + 1) ++ ": " ++ msg) :: acc.2)

/-- `CsvParser.parse`: normalize newlines, tokenize, drop the header row, parse
    the body rows. -/
def parse (content : String) (timestamp : Nat) (random : String) : ParseResult :=
  let rows := parseRows (String.mk (normCRLF content.data))
  let body := parseBody timestamp random 1 (rows.drop 1)
  ⟨body.1, body.2⟩

end CsvParser

/-! ## Import service (`src/unnamed/part_003`) -/

namespace ImportService

/-- `AccountService.getOrCreateDefault` (`src/unnamed/part_005`): the default
    account, or a freshly created `Compte Principal` with zero balances. -/
def getOrCreateDefault (db : DB) : DB × Account :=
  match db.accounts.find? (fun a => a.isDefault) with
  | some a => (db, a)
  | none =>
    let a : Account :=
      { id := db.nextAccountId, name := "Compte Principal", currency := "EUR",
        isDefault := true, initialBalance := 0, balance := 0 }
    ({ db with accounts := db.accounts ++ [a],
               nextAccountId := db.nextAccountId + 1 }, a)

/-- `ImportService.importFromCsv`: parse the CSV; when parsing produced no
    transactions but at least one parse error, return early (batch id 0)
    without touching the database; otherwise import into the default account
    and prepend the parse errors to the import errors. -/
def importFromCsv (db : DB) (csvContent : String) (filename : String)
    (env : ImportEnv) : Option (DB × ImportResult) :=
  let pr := CsvParser.parse csvContent env.timestamp env.random
  if pr.transactions.length = 0 ∧ pr.errors.length > 0 then
    some (db, { imported := 0, skipped := 0, errors := pr.errors, batchId := 0 })
  else
    let p := getOrCreateDefault db
    (TransactionService.importBatch p.1 p.2.id filename pr.transactions env).map
      (fun q => (q.1, { q.2 with errors := pr.errors ++ q.2.errors }))

/-- `ImportService.adjustInitialBalanceFromTink` (back-solve): with the
    authoritative feed balance `B`, set
    `initialBalance := B − credits + |debits|` (fresh sums over the account's
    stored transactions) and `balance := B` directly. A missing account returns
    silently (the surrounding `try/catch` swallows errors). -/
def adjustInitialBalanceFromTink (db : DB) (accountId : Nat) (tinkBalance : ℚ) :
    DB :=
  match AccountRepository.findById db accountId with
  | none => db
  | some _ =>
    let credits := TransactionRepository.sumByType db accountId .credit
    let debitsRaw := TransactionRepository.sumByType db accountId .debit
    let debits := |debitsRaw|
    let calculatedInitialBalance := tinkBalance - credits + debits
    { db with
      accounts := db.accounts.map
        (fun a =>
          if a.id == accountId then
            { a with initialBalance := calculatedInitialBalance,
                     balance := tinkBalance }
          else a) }

end ImportService

/-! ## Helper lemmas -/

theorem char_toNat_ofNatAux (n : Nat) (h : n.isValidChar) :
    (Char.ofNatAux n h).toNat = n := by
  show (BitVec.ofNatLt n _).toNat = n
  exact BitVec.toNat_ofNatLt n _

theorem char_toNat_ofNat (n : Nat) (h : n.isValidChar) : (Char.ofNat n).toNat = n := by
  unfold Char.ofNat
  rw [dif_pos h]
  exact char_toNat_ofNatAux n h

theorem char_toUpper_idem (c : Char) : c.toUpper.toUpper = c.toUpper := by
  unfold Char.toUpper
  by_cases h : c.toNat ≥ 97 ∧ c.toNat ≤ 122
  · rw [if_pos h]
    have hv : (c.toNat - 32).isValidChar := Or.inl (by omega)
    rw [char_toNat_ofNat _ hv, if_neg (by omega)]
  · rw [if_neg h, if_neg h]

theorem map_toUpper_idem (l : List Char) :
    (l.map Char.toUpper).map Char.toUpper = l.map Char.toUpper := by
  induction l with
  | nil => rfl
  | cons c l ih => simp only [List.map_cons, char_toUpper_idem, ih]

theorem jsToUpperCase_idem (s : String) :
    jsToUpperCase (jsToUpperCase s) = jsToUpperCase s :=
  congrArg String.mk (map_toUpper_idem s.data)

theorem round2_isCents_eq (q : ℚ) (h : IsCents q) : round2 q = q := by
  obtain ⟨n, rfl⟩ := h
  unfold round2 jsRound
  have h100 : (n : ℚ) / 100 * 100 = (n : ℚ) := by
    field_simp
  rw [h100, add_comm, Int.floor_add_int]
  have hhalf : ⌊(1 : ℚ) / 2⌋ = 0 := by
    rw [Int.floor_eq_zero_iff]
    constructor <;> norm_num
  rw [hhalf]
  push_cast
  ring

theorem IsCents.add {p q : ℚ} (hp : IsCents p) (hq : IsCents q) : IsCents (p + q) := by
  obtain ⟨n, rfl⟩ := hp
  obtain ⟨m, rfl⟩ := hq
  exact ⟨n + m, by push_cast; ring⟩

theorem IsCents.neg {p : ℚ} (hp : IsCents p) : IsCents (-p) := by
  obtain ⟨n, rfl⟩ := hp
  exact ⟨-n, by push_cast; ring⟩

theorem IsCents.sub {p q : ℚ} (hp : IsCents p) (hq : IsCents q) : IsCents (p - q) := by
  obtain ⟨n, rfl⟩ := hp
  obtain ⟨m, rfl⟩ := hq
  exact ⟨n - m, by push_cast; ring⟩

theorem IsCents.abs {p : ℚ} (hp : IsCents p) : IsCents |p| := by
  obtain ⟨n, rfl⟩ := hp
  refine ⟨|n|, ?_⟩
  rw [abs_div]
  push_cast
  norm_num

theorem isCents_zero : IsCents 0 := ⟨0, by norm_num⟩

theorem isCents_listSum (l : List ℚ) (h : ∀ q ∈ l, IsCents q) : IsCents l.sum := by
  induction l with
  | nil => simpa using isCents_zero
  | cons q l ih =>
    rw [List.sum_cons]
    exact (h q (by simp)).add (ih (fun p hp => h p (by simp [hp])))

theorem isCents_sumByType (db : DB) (accountId : Nat) (t : TransactionType)
    (htx : ∀ tx ∈ db.transactions, IsCents tx.amount) :
    IsCents (TransactionRepository.sumByType db accountId t) := by
  apply isCents_listSum
  intro q hq
  rw [List.mem_map] at hq
  obtain ⟨tx, htx', rfl⟩ := hq
  exact htx tx (List.mem_of_mem_filter htx')

/-- Generic lemma: a keyed in-place update (`UPDATE ... WHERE p`) commutes with
    a `find?` on the same key. -/
theorem find?_map_keyed {α : Type} (p : α → Bool) (f : α → α)
    (hp : ∀ a, p (f a) = p a) (l : List α) :
    (l.map fun a => if p a then f a else a).find? p = (l.find? p).map f := by
  induction l with
  | nil => rfl
  | cons a l ih =>
    simp only [List.map_cons]
    by_cases h : p a = true
    · rw [if_pos h]
      rw [List.find?_cons_of_pos _ (by rw [hp]; exact h), List.find?_cons_of_pos _ h]
      rfl
    · rw [if_neg h]
      rw [List.find?_cons_of_neg _ h, List.find?_cons_of_neg _ h]
      exact ih

theorem findById_after_updateBalance (db : DB) (id : Nat) (b : ℚ) :
    AccountRepository.findById
      { db with
        accounts :=
          db.accounts.map (fun a => if a.id == id then { a with balance := b } else a) }
      id =
    (AccountRepository.findById db id).map (fun a => { a with balance := b }) := by
  unfold AccountRepository.findById
  exact find?_map_keyed (fun a => a.id == id) (fun a => { a with balance := b })
    (fun a => rfl) db.accounts

/-- `calculateForAccount` never fails when the account exists: the explicit
    rounding/currency structure of the `Money` chain. -/
theorem calculateForAccount_eq_some (db : DB) (accountId : Nat) (acc : Account)
    (hacc : AccountRepository.findById db accountId = some acc) :
    BalanceCalculator.calculateForAccount db accountId =
      some ⟨round2 (round2 (round2 acc.initialBalance +
              round2 (TransactionRepository.sumByType db accountId .credit)) -
              round2 |TransactionRepository.sumByType db accountId .debit|),
            jsToUpperCase acc.currency⟩ := by
  have hadd : ∀ (i c : ℚ) (cur : String),
      (Money.make i cur).add (Money.make c cur) =
        some ⟨round2 (round2 i + round2 c), jsToUpperCase cur⟩ := by
    intro i c cur
    unfold Money.add Money.make
    rw [if_pos rfl]
    simp only [jsToUpperCase_idem]
  have hsub : ∀ (a d : ℚ) (cur : String),
      Money.subtract ⟨a, jsToUpperCase cur⟩ (Money.make d cur) =
        some ⟨round2 (a - round2 d), jsToUpperCase cur⟩ := by
    intro a d cur
    unfold Money.subtract Money.make
    rw [if_pos rfl]
    simp only [jsToUpperCase_idem]
  unfold BalanceCalculator.calculateForAccount
  rw [hacc]
  show (match (Money.make acc.initialBalance acc.currency).add
          (Money.make (TransactionRepository.sumByType db accountId .credit)
            acc.currency) with
    | none => none
    | some s =>
      s.subtract
        (Money.make |TransactionRepository.sumByType db accountId .debit|
          acc.currency)) = _
  rw [hadd]
  exact hsub _ _ _

theorem recalculateForAccount_spec (db : DB) (accountId : Nat) (acc : Account)
    (hacc : AccountRepository.findById db accountId = some acc) :
    ∃ db' : DB,
      BalanceCalculator.recalculateForAccount db accountId =
        some (db', round2 (round2 (round2 acc.initialBalance +
          round2 (TransactionRepository.sumByType db accountId .credit)) -
          round2 |TransactionRepository.sumByType db accountId .debit|)) ∧
      db'.transactions = db.transactions ∧
      db'.batches = db.batches ∧
      AccountRepository.findById db' accountId =
        some { acc with balance := round2 (round2 (round2 acc.initialBalance +
          round2 (TransactionRepository.sumByType db accountId .credit)) -
          round2 |TransactionRepository.sumByType db accountId .debit|) } := by
  unfold BalanceCalculator.recalculateForAccount
  rw [calculateForAccount_eq_some db accountId acc hacc]
  unfold AccountRepository.updateBalance
  rw [hacc]
  refine ⟨_, rfl, rfl, rfl, ?_⟩
  rw [findById_after_updateBalance, hacc]
  rfl

/-- The collapsed `Money` chain on exact-cent inputs. -/
theorem round2_chain_cents {i c d : ℚ} (hi : IsCents i) (hc : IsCents c)
    (hd : IsCents d) :
    round2 (round2 (round2 i + round2 c) - round2 |d|) = i + c - |d| := by
  rw [round2_isCents_eq _ hi, round2_isCents_eq _ hc, round2_isCents_eq _ hd.abs,
    round2_isCents_eq _ (hi.add hc), round2_isCents_eq _ ((hi.add hc).sub hd.abs)]

/-! ## Claim theorems -/

/-- **C1**: For every account, `BalanceCalculator.calculateForAccount` returns
    `initialBalance + Σcredits − |Σdebits|` (as a 2-decimal-rounded `Money`
    value, exact on 2-decimal inputs), and `recalculateForAccount` persists
    exactly that value and returns it; hence after every recalculation the
    stored balance equals `initialBalance + Σcredits − Σ|debits|`. -/
theorem claim_C1_balance_invariant (db : DB) (accountId : Nat) (acc : Account)
    (hacc : AccountRepository.findById db accountId = some acc)
    (hinit : IsCents acc.initialBalance)
    (htx : ∀ tx ∈ db.transactions, IsCents tx.amount) :
    (BalanceCalculator.calculateForAccount db accountId).map Money.amount =
      some (acc.initialBalance +
        TransactionRepository.sumByType db accountId .credit -
        |TransactionRepository.sumByType db accountId .debit|) ∧
    ∃ db' : DB,
      BalanceCalculator.recalculateForAccount db accountId =
        some (db', acc.initialBalance +
          TransactionRepository.sumByType db accountId .credit -
          |TransactionRepository.sumByType db accountId .debit|) ∧
      (AccountRepository.findById db' accountId).map Account.balance =
        some (acc.initialBalance +
          TransactionRepository.sumByType db accountId .credit -
          |TransactionRepository.sumByType db accountId .debit|) := by
  have hc := isCents_sumByType db accountId .credit htx
  have hd := isCents_sumByType db accountId .debit htx
  have hval := round2_chain_cents hinit hc hd
  constructor
  · rw [calculateForAccount_eq_some db accountId acc hacc]
    rw [Option.map_some']
    exact congrArg some hval
  · obtain ⟨db', hrec, -, -, hfind⟩ := recalculateForAccount_spec db accountId acc hacc
    refine ⟨db', ?_, ?_⟩
    · rw [hrec, hval]
    · rw [hfind, Option.map_some']
      exact congrArg some hval

/-- Concrete account and store for the C1 witness:
    initial balance 10.50, one credit of 200.25, one debit of −50.75. -/
def accW1 : Account :=
  { id := 1, name := "Compte Principal", currency := "EUR", isDefault := true,
    initialBalance := 10.5, balance := 0 }

def dbW1 : DB :=
  { accounts := [accW1],
    transactions :=
      [{ accountId := 1, importBatchId := none, date := .iso "2024-03-01",
         label := "SALAIRE", amount := 200.25, type := .credit, merchant := none,
         category := none, paymentMethod := none,
         hash := .tink "2024-03-01" 200.25 "SALAIRE" .credit },
       { accountId := 1, importBatchId := none, date := .iso "2024-03-02",
         label := "LIDL", amount := -50.75, type := .debit, merchant := none,
         category := none, paymentMethod := none,
         hash := .tink "2024-03-02" 50.75 "LIDL" .debit }],
    batches := [], nextAccountId := 2, nextBatchId := 0 }

theorem claim_C1_balance_invariant_witness :
    IsCents accW1.initialBalance ∧
    (BalanceCalculator.calculateForAccount dbW1 1).map Money.amount = some 160 ∧
    ∃ db' : DB,
      BalanceCalculator.recalculateForAccount dbW1 1 = some (db', 160) ∧
      (AccountRepository.findById db' 1).map Account.balance = some 160 := by
  have hinit : IsCents accW1.initialBalance := ⟨1050, by norm_num [accW1]⟩
  have htx : ∀ tx ∈ dbW1.transactions, IsCents tx.amount := by
    intro tx htx
    simp only [dbW1, List.mem_cons, List.not_mem_nil, or_false] at htx
    rcases htx with h | h <;> subst h
    · exact ⟨20025, by norm_num⟩
    · exact ⟨-5075, by norm_num⟩
  have h := claim_C1_balance_invariant dbW1 1 accW1 rfl hinit htx
  have hc : TransactionRepository.sumByType dbW1 1 .credit = 200.25 := by
    simp [TransactionRepository.sumByType, dbW1]
  have hd : TransactionRepository.sumByType dbW1 1 .debit = -50.75 := by
    simp [TransactionRepository.sumByType, dbW1]
  rw [hc, hd] at h
  have hval : accW1.initialBalance + 200.25 - |(-50.75 : ℚ)| = 160 := by
    show (10.5 : ℚ) + 200.25 - |(-50.75 : ℚ)| = 160
    rw [abs_of_nonpos (by norm_num)]
    norm_num
  rw [hval] at h
  exact ⟨hinit, h⟩

/-- **C2**: When the external feed reports an authoritative balance `B`,
    `adjustInitialBalanceFromTink` sets
    `initialBalance := B − Σcredits + |Σdebits|` and `balance := B` directly,
    and a subsequent `calculateForAccount` returns exactly `B`. -/
theorem claim_C2_back_solve (db : DB) (accountId : Nat) (acc : Account) (B : ℚ)
    (hacc : AccountRepository.findById db accountId = some acc)
    (hB : IsCents B)
    (htx : ∀ tx ∈ db.transactions, IsCents tx.amount) :
    ∃ acc' : Account,
      AccountRepository.findById
        (ImportService.adjustInitialBalanceFromTink db accountId B) accountId =
        some acc' ∧
      acc'.initialBalance = B -
        TransactionRepository.sumByType db accountId .credit +
        |TransactionRepository.sumByType db accountId .debit| ∧
      acc'.balance = B ∧
      (BalanceCalculator.calculateForAccount
        (ImportService.adjustInitialBalanceFromTink db accountId B)
        accountId).map Money.amount = some B := by
  have hc := isCents_sumByType db accountId .credit htx
  have hd := isCents_sumByType db accountId .debit htx
  set c := TransactionRepository.sumByType db accountId .credit with hcdef
  set d := TransactionRepository.sumByType db accountId .debit with hddef
  have hadj : ImportService.adjustInitialBalanceFromTink db accountId B =
      { db with
        accounts := db.accounts.map
          (fun a =>
            if a.id == accountId then
              { a with initialBalance := B - c + |d|, balance := B }
            else a) } := by
    unfold ImportService.adjustInitialBalanceFromTink
    rw [hacc]
  have hfind : AccountRepository.findById
      (ImportService.adjustInitialBalanceFromTink db accountId B) accountId =
      some { acc with initialBalance := B - c + |d|, balance := B } := by
    rw [hadj]
    unfold AccountRepository.findById
    rw [find?_map_keyed (fun a => a.id == accountId)
      (fun a => { a with initialBalance := B - c + |d|, balance := B })
      (fun a => rfl) db.accounts]
    show (AccountRepository.findById db accountId).map _ = _
    rw [hacc]
    rfl
  refine ⟨_, hfind, rfl, rfl, ?_⟩
  have hcalc := calculateForAccount_eq_some
    (ImportService.adjustInitialBalanceFromTink db accountId B) accountId
    { acc with initialBalance := B - c + |d|, balance := B } hfind
  have hsumc : TransactionRepository.sumByType
      (ImportService.adjustInitialBalanceFromTink db accountId B) accountId .credit = c := by
    rw [hadj]; exact hcdef.symm
  have hsumd : TransactionRepository.sumByType
      (ImportService.adjustInitialBalanceFromTink db accountId B) accountId .debit = d := by
    rw [hadj]; exact hddef.symm
  rw [hsumc, hsumd] at hcalc
  rw [hcalc, Option.map_some']
  refine congrArg some ?_
  show round2 (round2 (round2 (B - c + |d|) + round2 c) - round2 |d|) = B
  have hi : IsCents (B - c + |d|) := (hB.sub hc).add hd.abs
  rw [round2_chain_cents hi hc hd]
  ring

/-- Concrete store for the C2 witness: the spec's back-solve example —
    `initialBalance = 0`, imported credits 200, debits 50, feed balance 1000. -/
def dbW2 : DB :=
  { accounts :=
      [{ id := 1, name := "Compte Principal", currency := "EUR",
         isDefault := true, initialBalance := 0, balance := 0 }],
    transactions :=
      [{ accountId := 1, importBatchId := none, date := .iso "2024-03-01",
         label := "VIR", amount := 200, type := .credit, merchant := none,
         category := none, paymentMethod := none,
         hash := .tink "2024-03-01" 200 "VIR" .credit },
       { accountId := 1, importBatchId := none, date := .iso "2024-03-02",
         label := "CB", amount := -50, type := .debit, merchant := none,
         category := none, paymentMethod := none,
         hash := .tink "2024-03-02" 50 "CB" .debit }],
    batches := [], nextAccountId := 2, nextBatchId := 0 }

theorem claim_C2_back_solve_witness :
    ∃ acc' : Account,
      AccountRepository.findById
        (ImportService.adjustInitialBalanceFromTink dbW2 1 1000) 1 = some acc' ∧
      acc'.initialBalance = 850 ∧
      acc'.balance = 1000 ∧
      (BalanceCalculator.calculateForAccount
        (ImportService.adjustInitialBalanceFromTink dbW2 1 1000) 1).map
        Money.amount = some 1000 := by
  have htx : ∀ tx ∈ dbW2.transactions, IsCents tx.amount := by
    intro tx htx
    simp only [dbW2, List.mem_cons, List.not_mem_nil, or_false] at htx
    rcases htx with h | h <;> subst h
    · exact ⟨20000, by norm_num⟩
    · exact ⟨-5000, by norm_num⟩
  obtain ⟨acc', hfind, hinit, hbal, hcalc⟩ :=
    claim_C2_back_solve dbW2 1
      { id := 1, name := "Compte Principal", currency := "EUR",
        isDefault := true, initialBalance := 0, balance := 0 }
      1000 rfl ⟨100000, by norm_num⟩ htx
  have hc : TransactionRepository.sumByType dbW2 1 .credit = 200 := by
    simp [TransactionRepository.sumByType, dbW2]
  have hd : TransactionRepository.sumByType dbW2 1 .debit = -50 := by
    simp [TransactionRepository.sumByType, dbW2]
  rw [hc, hd] at hinit
  refine ⟨acc', hfind, ?_, hbal, hcalc⟩
  rw [hinit, abs_of_nonpos (by norm_num)]
  norm_num

/-- **C6**: For every external-feed transaction, the decoded value is
    `unscaledValue / 10^scale`, the derived type is credit iff that value is
    `≥ 0` (else debit), and the canonical amount of the normalizer's output is
    always the absolute value of the decoded value, paired with the derived
    type. -/
theorem claim_C6_feed_normalizer (raw : TinkTransactionRaw) :
    TinkTransformer.parseAmount raw.amount =
      (raw.amount.unscaledValue : ℚ) / 10 ^ raw.amount.scale ∧
    ((TinkTransformer.transformTransaction raw).type = .credit ↔
      0 ≤ TinkTransformer.parseAmount raw.amount) ∧
    ((TinkTransformer.transformTransaction raw).type = .debit ↔
      TinkTransformer.parseAmount raw.amount < 0) ∧
    (TinkTransformer.transformTransaction raw).amount =
      |TinkTransformer.parseAmount raw.amount| := by
  refine ⟨rfl, ?_, ?_, rfl⟩ <;>
    by_cases h : 0 ≤ TinkTransformer.parseAmount raw.amount <;>
      simp [TinkTransformer.transformTransaction, h, not_le.mp, lt_iff_not_le]

/-- **C9**: When a manual transaction is created and a stored transaction
    already carries the computed fingerprint, `TransactionService.create`
    throws the distinct `DuplicateTransactionError` (not the generic error
    constructor), and the returned database state is the input state unchanged:
    no transaction row is added and the account balance is untouched. -/
theorem claim_C9_duplicate_manual_create (db : DB) (accountId : Nat)
    (data : CreateTransactionDto) (timestamp : Nat) (random : String)
    (t0 : StoredTransaction)
    (hdup : TransactionRepository.findByHash db
      (HashGenerator.forManualTransaction (normalizeDateString data.date)
        data.label
        (if data.type = .credit then |data.amount| else -|data.amount|)
        timestamp random) = some t0) :
    TransactionService.create db accountId data timestamp random =
      (.error .duplicateTransaction, db) := by
  simp only [TransactionService.create, hdup]

/-- Concrete inputs for the C9 witness: a store already holding the manual
    fingerprint that `create` will compute. -/
def dtoW9 : CreateTransactionDto :=
  { date := "2024-03-01", label := "LOYER", amount := 45, type := .debit }

def hashW9 : Hash :=
  HashGenerator.forManualTransaction (normalizeDateString dtoW9.date) dtoW9.label
    (if dtoW9.type = .credit then |dtoW9.amount| else -|dtoW9.amount|) 7 "rand"

def txW9 : StoredTransaction :=
  { accountId := 1, importBatchId := none, date := .iso "2024-03-01",
    label := "LOYER", amount := -45, type := .debit, merchant := none,
    category := none, paymentMethod := none, hash := hashW9 }

def dbW9 : DB :=
  { accounts :=
      [{ id := 1, name := "Compte Principal", currency := "EUR",
         isDefault := true, initialBalance := 0, balance := -45 }],
    transactions := [txW9], batches := [], nextAccountId := 2, nextBatchId := 0 }

theorem claim_C9_duplicate_manual_create_witness :
    TransactionRepository.findByHash dbW9
      (HashGenerator.forManualTransaction (normalizeDateString dtoW9.date)
        dtoW9.label
        (if dtoW9.type = .credit then |dtoW9.amount| else -|dtoW9.amount|)
        7 "rand") = some txW9 ∧
    TransactionService.create dbW9 1 dtoW9 7 "rand" =
      (.error .duplicateTransaction, dbW9) := by
  have hfind : TransactionRepository.findByHash dbW9
      (HashGenerator.forManualTransaction (normalizeDateString dtoW9.date)
        dtoW9.label
        (if dtoW9.type = .credit then |dtoW9.amount| else -|dtoW9.amount|)
        7 "rand") = some txW9 := by
    show List.find? _ [txW9] = some txW9
    rw [List.find?_cons_of_pos]
    show (txW9.hash == hashW9) = true
    rw [beq_iff_eq]
    rfl
  exact ⟨hfind, claim_C9_duplicate_manual_create dbW9 1 dtoW9 7 "rand" txW9 hfind⟩

/-- The row interpreter on a well-formed 4-field row with a parseable date:
    the sign/type derivation rule as one equation. -/
theorem parseRow_spec (dateStr label debitStr creditStr : String)
    (ri ts : Nat) (rnd : String) (d : CalDate)
    (hdate : CsvParser.parseFrenchDate dateStr = some d)
    (hds : dateStr ≠ "") (hl : label ≠ "") :
    CsvParser.parseRow [dateStr, label, debitStr, creditStr] ri ts rnd =
      (if 0 < CsvParser.parseAmount debitStr then
        .ok (some (CsvParser.buildRow d label (-(CsvParser.parseAmount debitStr))
          .debit ri ts rnd))
      else if 0 < CsvParser.parseAmount creditStr then
        .ok (some (CsvParser.buildRow d label (CsvParser.parseAmount creditStr)
          .credit ri ts rnd))
      else .ok none) := by
  have g0 : [dateStr, label, debitStr, creditStr].getD 0 "" = dateStr := rfl
  have g1 : [dateStr, label, debitStr, creditStr].getD 1 "" = label := rfl
  have g2 : [dateStr, label, debitStr, creditStr].getD 2 "" = debitStr := rfl
  have g3 : [dateStr, label, debitStr, creditStr].getD 3 "" = creditStr := rfl
  simp only [CsvParser.parseRow, g0, g1, g2, g3]
  rw [if_neg (by simp [hds, hl]), hdate]

/-- concrete amount-parsing facts used by the witnesses -/
theorem parseAmount_eval_4520 : CsvParser.parseAmount "45,20" = 45.2 := by
  unfold CsvParser.parseAmount
  rw [if_neg (by decide)]
  have hrep : CsvParser.replaceFirstComma
      ("45,20".data.filter CsvParser.keepAmountChar) = ['4','5','.','2','0'] := by
    decide
  rw [hrep]
  have hfl : CsvParser.parseFloatChars ['4','5','.','2','0'] =
      some ((digitsToNat ['4','5'] : ℚ) + (digitsToNat ['2','0'] : ℚ) / 10 ^ 2) := rfl
  rw [hfl]
  have e1 : digitsToNat ['4','5'] = 45 := by decide
  have e2 : digitsToNat ['2','0'] = 20 := by decide
  rw [e1, e2]
  norm_num

theorem parseAmount_eval_150000 : CsvParser.parseAmount "1500,00" = 1500 := by
  unfold CsvParser.parseAmount
  rw [if_neg (by decide)]
  have hrep : CsvParser.replaceFirstComma
      ("1500,00".data.filter CsvParser.keepAmountChar) =
      ['1','5','0','0','.','0','0'] := by decide
  rw [hrep]
  have hfl : CsvParser.parseFloatChars ['1','5','0','0','.','0','0'] =
      some ((digitsToNat ['1','5','0','0'] : ℚ) +
        (digitsToNat ['0','0'] : ℚ) / 10 ^ 2) := rfl
  rw [hfl]
  have e1 : digitsToNat ['1','5','0','0'] = 1500 := by decide
  have e2 : digitsToNat ['0','0'] = 0 := by decide
  rw [e1, e2]
  norm_num

theorem parseAmount_eval_empty : CsvParser.parseAmount "" = 0 := by
  unfold CsvParser.parseAmount
  rw [if_pos (by decide)]

theorem parseAmount_eval_000 : CsvParser.parseAmount "0,00" = 0 := by
  unfold CsvParser.parseAmount
  rw [if_neg (by decide)]
  have hrep : CsvParser.replaceFirstComma
      ("0,00".data.filter CsvParser.keepAmountChar) = ['0','.','0','0'] := by decide
  rw [hrep]
  have hfl : CsvParser.parseFloatChars ['0','.','0','0'] =
      some ((digitsToNat ['0'] : ℚ) + (digitsToNat ['0','0'] : ℚ) / 10 ^ 2) := rfl
  rw [hfl]
  have e1 : digitsToNat ['0'] = 0 := by decide
  have e2 : digitsToNat ['0','0'] = 0 := by decide
  rw [e1, e2]
  norm_num

/-- **C5**: Row interpretation derives sign and type as: if the debit field
    parses to a value > 0 the canonical amount is −debit with type debit, else
    if the credit field parses to a value > 0 the amount is +credit with type
    credit, else the row yields null (skipped, no error). The witness
    instantiates the spec's `LIDL PARIS` and `SALAIRE` rows. -/
theorem claim_C5_row_interpretation (dateStr label debitStr creditStr : String)
    (ri ts : Nat) (rnd : String) (d : CalDate)
    (hdate : CsvParser.parseFrenchDate dateStr = some d)
    (hds : dateStr ≠ "") (hl : label ≠ "") :
    (0 < CsvParser.parseAmount debitStr →
      ∃ t, CsvParser.parseRow [dateStr, label, debitStr, creditStr] ri ts rnd =
          .ok (some t) ∧
        t.date = .cal d ∧ t.amount = -(CsvParser.parseAmount debitStr) ∧
        t.type = .debit) ∧
    (¬ 0 < CsvParser.parseAmount debitStr →
      0 < CsvParser.parseAmount creditStr →
      ∃ t, CsvParser.parseRow [dateStr, label, debitStr, creditStr] ri ts rnd =
          .ok (some t) ∧
        t.date = .cal d ∧ t.amount = CsvParser.parseAmount creditStr ∧
        t.type = .credit) ∧
    (¬ 0 < CsvParser.parseAmount debitStr →
      ¬ 0 < CsvParser.parseAmount creditStr →
      CsvParser.parseRow [dateStr, label, debitStr, creditStr] ri ts rnd =
        .ok none) := by
  rw [parseRow_spec dateStr label debitStr creditStr ri ts rnd d hdate hds hl]
  refine ⟨fun hdeb => ?_, fun hdeb hcred => ?_, fun hdeb hcred => ?_⟩
  · rw [if_pos hdeb]
    exact ⟨_, rfl, rfl, rfl, rfl⟩
  · rw [if_neg hdeb, if_pos hcred]
    exact ⟨_, rfl, rfl, rfl, rfl⟩
  · rw [if_neg hdeb, if_neg hcred]

theorem claim_C5_row_interpretation_witness :
    (∃ t, CsvParser.parseRow ["01/03/2024", "LIDL PARIS", "45,20", ""] 1 7 "r" =
        .ok (some t) ∧
      t.date = .cal ⟨2024, 3, 1⟩ ∧ t.amount = -45.2 ∧ t.type = .debit) ∧
    (∃ t, CsvParser.parseRow ["01/03/2024", "SALAIRE", "", "1500,00"] 2 7 "r" =
        .ok (some t) ∧
      t.date = .cal ⟨2024, 3, 1⟩ ∧ t.amount = 1500 ∧ t.type = .credit) := by
  constructor
  · obtain ⟨h1, -, -⟩ := claim_C5_row_interpretation "01/03/2024" "LIDL PARIS"
      "45,20" "" 1 7 "r" ⟨2024, 3, 1⟩ (by decide) (by decide) (by decide)
    obtain ⟨t, ht, hd, ha, hty⟩ := h1 (by rw [parseAmount_eval_4520]; norm_num)
    rw [parseAmount_eval_4520] at ha
    exact ⟨t, ht, hd, ha, hty⟩
  · obtain ⟨-, h2, -⟩ := claim_C5_row_interpretation "01/03/2024" "SALAIRE"
      "" "1500,00" 2 7 "r" ⟨2024, 3, 1⟩ (by decide) (by decide) (by decide)
    obtain ⟨t, ht, hd, ha, hty⟩ := h2
      (by rw [parseAmount_eval_empty]; norm_num)
      (by rw [parseAmount_eval_150000]; norm_num)
    rw [parseAmount_eval_150000] at ha
    exact ⟨t, ht, hd, ha, hty⟩

/-! ## Import-loop lemmas -/

theorem runImport_accounts (env : ImportEnv) (a b : Nat)
    (txs : List ParsedTransactionData) :
    ∀ (db : DB) (i m s : Nat) (e : List String),
      (TransactionService.runImport env a b db i m s e txs).1.accounts =
        db.accounts := by
  induction txs with
  | nil => intro db i m s e; rfl
  | cons tx rest ih =>
    intro db i m s e
    rw [TransactionService.runImport]
    cases TransactionRepository.findByHash db tx.hash with
    | some t => exact ih db (i + 1) m (s + 1) e
    | none =>
      by_cases hf : env.createFails i = true
      · rw [if_pos hf]
        exact ih db (i + 1) m s (e ++ ["Erreur inconnue"])
      · rw [if_neg hf]
        exact ih _ (i + 1) (m + 1) s e

theorem runImport_batches (env : ImportEnv) (a b : Nat)
    (txs : List ParsedTransactionData) :
    ∀ (db : DB) (i m s : Nat) (e : List String),
      (TransactionService.runImport env a b db i m s e txs).1.batches =
        db.batches := by
  induction txs with
  | nil => intro db i m s e; rfl
  | cons tx rest ih =>
    intro db i m s e
    rw [TransactionService.runImport]
    cases TransactionRepository.findByHash db tx.hash with
    | some t => exact ih db (i + 1) m (s + 1) e
    | none =>
      by_cases hf : env.createFails i = true
      · rw [if_pos hf]
        exact ih db (i + 1) m s (e ++ ["Erreur inconnue"])
      · rw [if_neg hf]
        exact ih _ (i + 1) (m + 1) s e

/-- Every transaction handed to the import loop lands in exactly one of the
    three outcomes: the final counters satisfy
    `imported + skipped + |errors| = initial + |input|`. -/
theorem runImport_counts (env : ImportEnv) (a b : Nat)
    (txs : List ParsedTransactionData) :
    ∀ (db : DB) (i m s : Nat) (e : List String),
      (TransactionService.runImport env a b db i m s e txs).2.1 +
        (TransactionService.runImport env a b db i m s e txs).2.2.1 +
        (TransactionService.runImport env a b db i m s e txs).2.2.2.length =
      m + s + e.length + txs.length := by
  induction txs with
  | nil => intro db i m s e; simp [TransactionService.runImport]
  | cons tx rest ih =>
    intro db i m s e
    rw [TransactionService.runImport]
    cases TransactionRepository.findByHash db tx.hash with
    | some t =>
      rw [ih db (i + 1) m (s + 1) e]
      simp only [List.length_cons]
      omega
    | none =>
      by_cases hf : env.createFails i = true
      · rw [if_pos hf, ih db (i + 1) m s (e ++ ["Erreur inconnue"])]
        simp only [List.length_append, List.length_cons, List.length_nil]
        omega
      · rw [if_neg hf, ih _ (i + 1) (m + 1) s e]
        simp only [List.length_cons]
        omega

theorem findById_congr (db1 db2 : DB) (id : Nat)
    (h : db1.accounts = db2.accounts) :
    AccountRepository.findById db1 id = AccountRepository.findById db2 id := by
  unfold AccountRepository.findById
  rw [h]

theorem sumByType_congr (db1 db2 : DB) (accountId : Nat) (t : TransactionType)
    (h : db1.transactions = db2.transactions) :
    TransactionRepository.sumByType db1 accountId t =
      TransactionRepository.sumByType db2 accountId t := by
  unfold TransactionRepository.sumByType
  rw [h]

theorem find?_map_append_single {α : Type} (p : α → Bool) (f : α → α)
    (l : List α) (x : α) (hl : ∀ a ∈ l, p (f a) = false) :
    ((l ++ [x]).map f).find? p = if p (f x) then some (f x) else none := by
  induction l with
  | nil =>
    simp only [List.nil_append, List.map_cons, List.map_nil]
    by_cases h : p (f x) = true
    · rw [if_pos h]
      exact List.find?_cons_of_pos _ h
    · rw [if_neg h, List.find?_cons_of_neg _ h]
      rfl
  | cons a l ih =>
    simp only [List.cons_append, List.map_cons]
    rw [List.find?_cons_of_neg _ (by simp [hl a (by simp)])]
    exact ih (fun a' ha' => hl a' (by simp [ha']))

/-- The per-row update applied by `markCompleted` to the batch table. -/
def completedUpdate (nb imp skp : Nat) (bb : ImportBatch) : ImportBatch :=
  if bb.id == nb then
    { bb with status := .completed, rowsImported := imp, rowsSkipped := skp }
  else bb

theorem importBatchState_accounts (db : DB) (accountId : Nat) (filename : String)
    (txs : List ParsedTransactionData) (env : ImportEnv) :
    (TransactionService.importBatchState db accountId filename txs env).1.accounts =
      db.accounts := by
  show (TransactionService.runImport env accountId db.nextBatchId
      (ImportBatchRepository.createBatch db accountId filename .processing).1
      0 0 0 [] txs).1.accounts = db.accounts
  rw [runImport_accounts]
  rfl

theorem importBatchState_counts (db : DB) (accountId : Nat) (filename : String)
    (txs : List ParsedTransactionData) (env : ImportEnv) :
    (TransactionService.importBatchState db accountId filename txs env).2.1 +
      (TransactionService.importBatchState db accountId filename txs env).2.2.1 +
      (TransactionService.importBatchState db accountId filename txs env).2.2.2.length =
      txs.length := by
  show (TransactionService.runImport env accountId db.nextBatchId
        (ImportBatchRepository.createBatch db accountId filename .processing).1
        0 0 0 [] txs).2.1 +
      (TransactionService.runImport env accountId db.nextBatchId
        (ImportBatchRepository.createBatch db accountId filename .processing).1
        0 0 0 [] txs).2.2.1 +
      (TransactionService.runImport env accountId db.nextBatchId
        (ImportBatchRepository.createBatch db accountId filename .processing).1
        0 0 0 [] txs).2.2.2.length = txs.length
  rw [runImport_counts]
  simp

theorem importBatchState_batches (db : DB) (accountId : Nat) (filename : String)
    (txs : List ParsedTransactionData) (env : ImportEnv) :
    (TransactionService.importBatchState db accountId filename txs env).1.batches =
      ((db.batches ++
        [({ id := db.nextBatchId, accountId := accountId, filename := filename,
            status := .processing, rowsImported := 0, rowsSkipped := 0,
            errorMessage := none } : ImportBatch)]).map
        (completedUpdate db.nextBatchId
          (TransactionService.importBatchState db accountId filename txs env).2.1
          (TransactionService.importBatchState db accountId filename txs env).2.2.1)) := by
  show (TransactionService.runImport env accountId db.nextBatchId
        (ImportBatchRepository.createBatch db accountId filename .processing).1
        0 0 0 [] txs).1.batches.map _ = _
  rw [runImport_batches]
  rfl

/-- The full behaviour of `importBatch` over an existing account: the returned
    result carries the loop counters with the fresh batch id, every input lands
    in exactly one of the three outcomes, the batch table is the input one plus
    the completed batch row carrying exactly those counters, and the persisted
    balance equals the recomputed balance of the final state. -/
theorem importBatch_spec (db : DB) (accountId : Nat) (filename : String)
    (txs : List ParsedTransactionData) (env : ImportEnv) (acc : Account)
    (hacc : AccountRepository.findById db accountId = some acc) :
    ∃ (db4 : DB) (r : ImportResult),
      TransactionService.importBatch db accountId filename txs env =
        some (db4, r) ∧
      r.batchId = db.nextBatchId ∧
      r.imported + r.skipped + r.errors.length = txs.length ∧
      db4.batches =
        ((db.batches ++
          [({ id := db.nextBatchId, accountId := accountId, filename := filename,
              status := .processing, rowsImported := 0, rowsSkipped := 0,
              errorMessage := none } : ImportBatch)]).map
          (completedUpdate db.nextBatchId r.imported r.skipped)) ∧
      (AccountRepository.findById db4 accountId).map Account.balance =
        (BalanceCalculator.calculateForAccount db4 accountId).map Money.amount := by
  have hacc3 : AccountRepository.findById
      (TransactionService.importBatchState db accountId filename txs env).1
      accountId = some acc := by
    rw [findById_congr _ db accountId
      (importBatchState_accounts db accountId filename txs env)]
    exact hacc
  obtain ⟨db4, hrec, htx4, hbat4, hfind4⟩ :=
    recalculateForAccount_spec _ accountId acc hacc3
  refine ⟨db4,
    { imported := (TransactionService.importBatchState db accountId filename txs env).2.1,
      skipped := (TransactionService.importBatchState db accountId filename txs env).2.2.1,
      errors := (TransactionService.importBatchState db accountId filename txs env).2.2.2,
      batchId := db.nextBatchId }, ?_, rfl, ?_, ?_, ?_⟩
  · show (BalanceCalculator.recalculateForAccount
        (TransactionService.importBatchState db accountId filename txs env).1
        accountId).map _ = _
    rw [hrec, Option.map_some']
  · exact importBatchState_counts db accountId filename txs env
  · rw [hbat4]
    exact importBatchState_batches db accountId filename txs env
  · rw [hfind4, Option.map_some']
    rw [calculateForAccount_eq_some db4 accountId _ hfind4, Option.map_some']
    refine congrArg some ?_
    show round2 (round2 (round2 acc.initialBalance +
        round2 (TransactionRepository.sumByType
          (TransactionService.importBatchState db accountId filename txs env).1
          accountId .credit)) -
        round2 |TransactionRepository.sumByType
          (TransactionService.importBatchState db accountId filename txs env).1
          accountId .debit|) = _
    rw [sumByType_congr _ db4 accountId .credit htx4.symm,
      sumByType_congr _ db4 accountId .debit htx4.symm]

@[simp] theorem buildRow_amount (d : CalDate) (label : String) (amount : ℚ)
    (type : TransactionType) (ri ts : Nat) (rnd : String) :
    (CsvParser.buildRow d label amount type ri ts rnd).amount = amount := rfl

@[simp] theorem buildRow_type (d : CalDate) (label : String) (amount : ℚ)
    (type : TransactionType) (ri ts : Nat) (rnd : String) :
    (CsvParser.buildRow d label amount type ri ts rnd).type = type := rfl

@[simp] theorem buildRow_date (d : CalDate) (label : String) (amount : ℚ)
    (type : TransactionType) (ri ts : Nat) (rnd : String) :
    (CsvParser.buildRow d label amount type ri ts rnd).date = .cal d := rfl

theorem tinkToParsed_amount (tx : TinkTransactionData) :
    (TransactionService.tinkToParsed tx).amount =
      (if tx.type = .credit then tx.amount else -tx.amount) := rfl

theorem tinkToParsed_type (tx : TinkTransactionData) :
    (TransactionService.tinkToParsed tx).type = tx.type := rfl

/-- **C4 (amended)**: Every `CanonicalTransaction` produced by CSV row
    interpretation satisfies `amount < 0 ↔ type = debit` and
    `amount > 0 ↔ type = credit`, and a CSV row whose two amount fields parse
    to 0 is dropped (`ok none`) without an error. On the external-feed path
    `amount < 0 ↔ type = debit` holds and `amount > 0 → type = credit`, but
    the converse fails at decoded value 0: a zero-amount feed item is *not*
    dropped — it yields a stored transaction with `amount = 0` and
    `type = credit` (see the counterexample). -/
theorem claim_C4_amended :
    (∀ (fields : List String) (ri ts : Nat) (rnd : String)
        (t : ParsedTransactionData),
      CsvParser.parseRow fields ri ts rnd = .ok (some t) →
      (t.amount < 0 ↔ t.type = .debit) ∧ (0 < t.amount ↔ t.type = .credit)) ∧
    (∀ (dateStr label debitStr creditStr : String) (ri ts : Nat) (rnd : String)
        (d : CalDate),
      CsvParser.parseFrenchDate dateStr = some d → dateStr ≠ "" → label ≠ "" →
      CsvParser.parseAmount debitStr = 0 → CsvParser.parseAmount creditStr = 0 →
      CsvParser.parseRow [dateStr, label, debitStr, creditStr] ri ts rnd =
        .ok none) ∧
    (∀ raw : TinkTransactionRaw,
      ((TransactionService.tinkToParsed
          (TinkTransformer.transformTransaction raw)).amount < 0 ↔
        (TransactionService.tinkToParsed
          (TinkTransformer.transformTransaction raw)).type = .debit) ∧
      (0 < (TransactionService.tinkToParsed
          (TinkTransformer.transformTransaction raw)).amount →
        (TransactionService.tinkToParsed
          (TinkTransformer.transformTransaction raw)).type = .credit)) := by
  refine ⟨?_, ?_, ?_⟩
  · intro fields ri ts rnd t h
    simp only [CsvParser.parseRow] at h
    split at h
    · exact absurd h (by simp)
    · split at h
      · exact absurd h (by simp)
      · split at h
        · rename_i hdeb
          simp only [Except.ok.injEq, Option.some.injEq] at h
          subst h
          refine ⟨iff_of_true ?_ ?_, iff_of_false ?_ ?_⟩
          · rw [buildRow_amount]
            exact neg_neg_of_pos hdeb
          · rw [buildRow_type]
          · rw [buildRow_amount]
            exact not_lt.mpr (le_of_lt (neg_neg_of_pos hdeb))
          · rw [buildRow_type]
            decide
        · split at h
          · rename_i hcred
            simp only [Except.ok.injEq, Option.some.injEq] at h
            subst h
            refine ⟨iff_of_false ?_ ?_, iff_of_true ?_ ?_⟩
            · rw [buildRow_amount]
              exact not_lt.mpr (le_of_lt hcred)
            · rw [buildRow_type]
              decide
            · rw [buildRow_amount]
              exact hcred
            · rw [buildRow_type]
          · exact absurd h (by simp)
  · intro dateStr label debitStr creditStr ri ts rnd d hdate hds hl hdeb hcred
    rw [parseRow_spec dateStr label debitStr creditStr ri ts rnd d hdate hds hl]
    rw [if_neg (by rw [hdeb]; exact lt_irrefl 0),
      if_neg (by rw [hcred]; exact lt_irrefl 0)]
  · intro raw
    rcases le_or_lt 0 (TinkTransformer.parseAmount raw.amount) with h | h
    · have hty : (TinkTransformer.transformTransaction raw).type = .credit := by
        show (if 0 ≤ TinkTransformer.parseAmount raw.amount then
          TransactionType.credit else .debit) = .credit
        rw [if_pos h]
      have hamt : (TinkTransformer.transformTransaction raw).amount =
          |TinkTransformer.parseAmount raw.amount| := rfl
      rw [tinkToParsed_amount, tinkToParsed_type, hty, hamt, if_pos rfl]
      exact ⟨iff_of_false (not_lt.mpr (abs_nonneg _)) (by decide), fun _ => rfl⟩
    · have hty : (TinkTransformer.transformTransaction raw).type = .debit := by
        show (if 0 ≤ TinkTransformer.parseAmount raw.amount then
          TransactionType.credit else .debit) = .debit
        rw [if_neg (not_le.mpr h)]
      have hamt : (TinkTransformer.transformTransaction raw).amount =
          |TinkTransformer.parseAmount raw.amount| := rfl
      have habs : 0 < |TinkTransformer.parseAmount raw.amount| :=
        abs_pos.mpr (ne_of_lt h)
      rw [tinkToParsed_amount, tinkToParsed_type, hty, hamt, if_neg (by decide)]
      refine ⟨iff_of_true (neg_neg_of_pos habs) rfl, fun hpos => ?_⟩
      exact absurd (lt_trans hpos (neg_neg_of_pos habs)) (lt_irrefl 0)

/-- Concrete inputs refuting C4 as stated: a feed item with decoded value 0. -/
def rawC4 : TinkTransactionRaw :=
  { id := "tx0", amount := { unscaledValue := 0, scale := 0 },
    descriptionOriginal := "ZERO", descriptionDisplay := none,
    dateBooked := "2024-03-01" }

def tdC4 : TinkTransactionData :=
  { externalId := "tx0", date := "2024-03-01", amount := 0,
    description := "ZERO", type := .credit }

def env0 : ImportEnv :=
  { timestamp := 7, random := "r", today := "2024-03-05",
    createFails := fun _ => false }

def acc0 : Account :=
  { id := 1, name := "Compte Principal", currency := "EUR", isDefault := true,
    initialBalance := 0, balance := 0 }

def db0 : DB :=
  { accounts := [acc0], transactions := [], batches := [],
    nextAccountId := 2, nextBatchId := 0 }

/-- The state after the batch/loop stage of importing the zero feed item. -/
def db3C4 : DB :=
  { accounts := [acc0],
    transactions :=
      [TransactionService.toStored 1 0 (TransactionService.tinkToParsed tdC4)],
    batches :=
      [{ id := 0, accountId := 1, filename := "tink_sync_2024-03-05",
         status := .completed, rowsImported := 1, rowsSkipped := 0,
         errorMessage := none }],
    nextAccountId := 2, nextBatchId := 1 }

/-- **C4 (counterexample)**: the claim "any row or feed item whose amount is 0
    is dropped without producing a transaction" is false on the feed path: a
    Tink item with decoded value 0 normalizes to `amount = 0, type = credit`
    and `importFromTink` stores it (`imported = 1`, one stored row with
    `amount = 0` and `type = credit`), also refuting `amount > 0 ↔ credit`. -/
theorem claim_C4_counterexample :
    TinkTransformer.transformTransaction rawC4 = tdC4 ∧
    tdC4.amount = 0 ∧ tdC4.type = .credit ∧
    ∃ (db4 : DB) (r : ImportResult),
      TransactionService.importFromTink db0 1 [tdC4] env0 = some (db4, r) ∧
      r.imported = 1 ∧ r.skipped = 0 ∧
      ∃ tx : StoredTransaction, db4.transactions = [tx] ∧
        tx.amount = 0 ∧ tx.type = .credit := by
  have hv : TinkTransformer.parseAmount rawC4.amount = 0 := by
    show ((0 : ℤ) : ℚ) / 10 ^ (0 : ℕ) = 0
    norm_num
  refine ⟨?_, rfl, rfl, ?_⟩
  · show ({ externalId := rawC4.id,
            date := rawC4.dateBooked,
            amount := |TinkTransformer.parseAmount rawC4.amount|,
            description := trimString
              (jsOrElse rawC4.descriptionDisplay rawC4.descriptionOriginal),
            type := if 0 ≤ TinkTransformer.parseAmount rawC4.amount then .credit
              else .debit } : TinkTransactionData) = tdC4
    rw [hv, abs_zero, if_pos (le_refl (0 : ℚ))]
    rfl
  · have hs : TransactionService.importBatchState db0 1
        ("tink_sync_" ++ env0.today)
        ([tdC4].map TransactionService.tinkToParsed) env0 =
        (db3C4, 1, 0, ([] : List String)) := rfl
    have h1 : TransactionService.importFromTink db0 1 [tdC4] env0 =
        (BalanceCalculator.recalculateForAccount
          (TransactionService.importBatchState db0 1
            ("tink_sync_" ++ env0.today)
            ([tdC4].map TransactionService.tinkToParsed) env0).1 1).map
          (fun p4 => (p4.1,
            { imported := (TransactionService.importBatchState db0 1
                ("tink_sync_" ++ env0.today)
                ([tdC4].map TransactionService.tinkToParsed) env0).2.1,
              skipped := (TransactionService.importBatchState db0 1
                ("tink_sync_" ++ env0.today)
                ([tdC4].map TransactionService.tinkToParsed) env0).2.2.1,
              errors := (TransactionService.importBatchState db0 1
                ("tink_sync_" ++ env0.today)
                ([tdC4].map TransactionService.tinkToParsed) env0).2.2.2,
              batchId := db0.nextBatchId })) := rfl
    have hopen : TransactionService.importFromTink db0 1 [tdC4] env0 =
        (BalanceCalculator.recalculateForAccount db3C4 1).map
          (fun p4 => (p4.1,
            { imported := 1, skipped := 0, errors := [], batchId := 0 })) := by
      rw [h1, hs]
      rfl
    obtain ⟨db4, hrec, htx4, hbat4, hfind4⟩ :=
      recalculateForAccount_spec db3C4 1 acc0 rfl
    refine ⟨db4, { imported := 1, skipped := 0, errors := [], batchId := 0 },
      ?_, rfl, rfl, ?_⟩
    · rw [hopen, hrec, Option.map_some']
    · refine ⟨TransactionService.toStored 1 0
        (TransactionService.tinkToParsed tdC4), ?_, rfl, rfl⟩
      rw [htx4]
      rfl

def rawW4 : TinkTransactionRaw :=
  { id := "t1", amount := { unscaledValue := -5, scale := 0 },
    descriptionOriginal := "CB", descriptionDisplay := none,
    dateBooked := "2024-03-01" }

theorem claim_C4_amended_witness :
    ((CsvParser.buildRow ⟨2024, 3, 1⟩ "LIDL PARIS"
        (-(CsvParser.parseAmount "45,20")) .debit 1 7 "r").amount < 0 ↔
      (CsvParser.buildRow ⟨2024, 3, 1⟩ "LIDL PARIS"
        (-(CsvParser.parseAmount "45,20")) .debit 1 7 "r").type = .debit) ∧
    CsvParser.parseRow ["01/03/2024", "ZERO", "0,00", ""] 3 7 "r" = .ok none ∧
    ((TransactionService.tinkToParsed
        (TinkTransformer.transformTransaction rawW4)).amount < 0 ↔
      (TransactionService.tinkToParsed
        (TinkTransformer.transformTransaction rawW4)).type = .debit) := by
  refine ⟨?_, ?_, (claim_C4_amended.2.2 rawW4).1⟩
  · have hrow : CsvParser.parseRow ["01/03/2024", "LIDL PARIS", "45,20", ""]
        1 7 "r" = .ok (some (CsvParser.buildRow ⟨2024, 3, 1⟩ "LIDL PARIS"
          (-(CsvParser.parseAmount "45,20")) .debit 1 7 "r")) := by
      rw [parseRow_spec "01/03/2024" "LIDL PARIS" "45,20" "" 1 7 "r" ⟨2024, 3, 1⟩
        (by decide) (by decide) (by decide)]
      rw [if_pos (by rw [parseAmount_eval_4520]; norm_num)]
    exact (claim_C4_amended.1 _ 1 7 "r" _ hrow).1
  · exact claim_C4_amended.2.1 "01/03/2024" "ZERO" "0,00" "" 3 7 "r" ⟨2024, 3, 1⟩
      (by decide) (by decide) (by decide) parseAmount_eval_000 parseAmount_eval_empty

/-- **C10**: In `TransactionService.importBatch`, every input transaction lands
    in exactly one of the three outcomes, so
    `imported + skipped + |errors| = |input|`, and the batch is always marked
    `completed` carrying exactly these `imported`/`skipped` counters. The batch
    id must be fresh (`hfresh`), which the auto-increment primary key
    guarantees. -/
theorem claim_C10_batch_accounting (db : DB) (accountId : Nat)
    (filename : String) (txs : List ParsedTransactionData) (env : ImportEnv)
    (acc : Account)
    (hacc : AccountRepository.findById db accountId = some acc)
    (hfresh : ∀ bb ∈ db.batches, bb.id ≠ db.nextBatchId) :
    ∃ (db4 : DB) (r : ImportResult),
      TransactionService.importBatch db accountId filename txs env =
        some (db4, r) ∧
      r.imported + r.skipped + r.errors.length = txs.length ∧
      ∃ bb : ImportBatch,
        ImportBatchRepository.findBatch db4 r.batchId = some bb ∧
        bb.status = .completed ∧ bb.rowsImported = r.imported ∧
        bb.rowsSkipped = r.skipped := by
  obtain ⟨db4, r, heq, hbid, hcnt, hbat, hbal⟩ :=
    importBatch_spec db accountId filename txs env acc hacc
  refine ⟨db4, r, heq, hcnt, ?_⟩
  rw [hbid]
  unfold ImportBatchRepository.findBatch
  rw [hbat]
  rw [find?_map_append_single (fun b => b.id == db.nextBatchId)
    (completedUpdate db.nextBatchId r.imported r.skipped) db.batches _
    (fun a ha => by simp [completedUpdate, beq_iff_eq, hfresh a ha])]
  rw [if_pos (by simp [completedUpdate])]
  refine ⟨_, rfl, ?_, ?_, ?_⟩ <;> simp [completedUpdate]

theorem claim_C10_batch_accounting_witness :
    ∃ (db4 : DB) (r : ImportResult),
      TransactionService.importBatch db0 1 "releve.csv"
        [TransactionService.tinkToParsed tdC4] env0 = some (db4, r) ∧
      r.imported + r.skipped + r.errors.length = 1 ∧
      ∃ bb : ImportBatch,
        ImportBatchRepository.findBatch db4 r.batchId = some bb ∧
        bb.status = .completed ∧ bb.rowsImported = r.imported ∧
        bb.rowsSkipped = r.skipped := by
  have h := claim_C10_batch_accounting db0 1 "releve.csv"
    [TransactionService.tinkToParsed tdC4] env0 acc0 rfl
    (fun bb hbb => by simp [db0] at hbb)
  simpa using h

/-- **C7 (amended)**: Every import that reaches the batch stage recalculates
    and persists the account balance unconditionally — `importBatch` and
    `importFromTink` always do (for an existing account, even with zero rows),
    and `importFromCsv` does whenever parsing yields at least one transaction
    or no parse errors — so the stored balance then equals the value derived
    from `initialBalance` and the stored transactions. But `importFromCsv`
    returns early, creating no batch and recalculating nothing, when parsing
    yields zero transactions and at least one parse error (see the
    counterexample). -/
theorem claim_C7_amended :
    (∀ (db : DB) (accountId : Nat) (filename : String)
        (txs : List ParsedTransactionData) (env : ImportEnv) (acc : Account),
      AccountRepository.findById db accountId = some acc →
      ∃ (db4 : DB) (r : ImportResult),
        TransactionService.importBatch db accountId filename txs env =
          some (db4, r) ∧
        (AccountRepository.findById db4 accountId).map Account.balance =
          (BalanceCalculator.calculateForAccount db4 accountId).map
            Money.amount) ∧
    (∀ (db : DB) (accountId : Nat) (txs : List TinkTransactionData)
        (env : ImportEnv) (acc : Account),
      AccountRepository.findById db accountId = some acc →
      ∃ (db4 : DB) (r : ImportResult),
        TransactionService.importFromTink db accountId txs env =
          some (db4, r) ∧
        (AccountRepository.findById db4 accountId).map Account.balance =
          (BalanceCalculator.calculateForAccount db4 accountId).map
            Money.amount) ∧
    (∀ (db : DB) (content filename : String) (env : ImportEnv) (accD : Account),
      db.accounts.find? (fun a => a.isDefault) = some accD →
      AccountRepository.findById db accD.id = some accD →
      ¬((CsvParser.parse content env.timestamp env.random).transactions.length =
          0 ∧
        (CsvParser.parse content env.timestamp env.random).errors.length > 0) →
      ∃ (db4 : DB) (r : ImportResult),
        ImportService.importFromCsv db content filename env = some (db4, r) ∧
        (AccountRepository.findById db4 accD.id).map Account.balance =
          (BalanceCalculator.calculateForAccount db4 accD.id).map
            Money.amount) := by
  refine ⟨?_, ?_, ?_⟩
  · intro db accountId filename txs env acc hacc
    obtain ⟨db4, r, heq, -, -, -, hbal⟩ :=
      importBatch_spec db accountId filename txs env acc hacc
    exact ⟨db4, r, heq, hbal⟩
  · intro db accountId txs env acc hacc
    obtain ⟨db4, r, heq, -, -, -, hbal⟩ :=
      importBatch_spec db accountId ("tink_sync_" ++ env.today)
        (txs.map TransactionService.tinkToParsed) env acc hacc
    exact ⟨db4, r, heq, hbal⟩
  · intro db content filename env accD hdef hacc hcond
    obtain ⟨db4, r, heq, -, -, -, hbal⟩ :=
      importBatch_spec db accD.id filename
        (CsvParser.parse content env.timestamp env.random).transactions env
        accD hacc
    refine ⟨db4,
      { r with errors :=
          (CsvParser.parse content env.timestamp env.random).errors ++
            r.errors }, ?_, hbal⟩
    have hget : ImportService.getOrCreateDefault db = (db, accD) := by
      unfold ImportService.getOrCreateDefault
      rw [hdef]
    simp only [ImportService.importFromCsv]
    rw [if_neg hcond, hget]
    show (TransactionService.importBatch db accD.id filename
        (CsvParser.parse content env.timestamp env.random).transactions env).map
      (fun q => (q.1, { q.2 with errors :=
        (CsvParser.parse content env.timestamp env.random).errors ++
          q.2.errors })) = _
    rw [heq, Option.map_some']

theorem claim_C7_amended_witness :
    (∃ (db4 : DB) (r : ImportResult),
      TransactionService.importBatch db0 1 "releve2.csv" [] env0 =
        some (db4, r) ∧
      (AccountRepository.findById db4 1).map Account.balance =
        (BalanceCalculator.calculateForAccount db4 1).map Money.amount) ∧
    (∃ (db4 : DB) (r : ImportResult),
      TransactionService.importFromTink db0 1 [tdC4] env0 = some (db4, r) ∧
      (AccountRepository.findById db4 1).map Account.balance =
        (BalanceCalculator.calculateForAccount db4 1).map Money.amount) ∧
    (∃ (db4 : DB) (r : ImportResult),
      ImportService.importFromCsv db0
        "Date;Libelle;Debit;Credit\n01/03/2024;LIDL PARIS;45,20;\n"
        "ca.csv" env0 = some (db4, r) ∧
      (AccountRepository.findById db4 acc0.id).map Account.balance =
        (BalanceCalculator.calculateForAccount db4 acc0.id).map
          Money.amount) := by
  refine ⟨claim_C7_amended.1 db0 1 "releve2.csv" [] env0 acc0 rfl,
    claim_C7_amended.2.1 db0 1 [tdC4] env0 acc0 rfl,
    claim_C7_amended.2.2 db0
      "Date;Libelle;Debit;Credit\n01/03/2024;LIDL PARIS;45,20;\n" "ca.csv"
      env0 acc0 rfl rfl ?_⟩
  have hdate : CsvParser.parseFrenchDate "01/03/2024" = some ⟨2024, 3, 1⟩ := by
    decide
  have hdeb : 0 < CsvParser.parseAmount "45,20" := by
    rw [parseAmount_eval_4520]
    norm_num
  have hlen : (CsvParser.parse
      "Date;Libelle;Debit;Credit\n01/03/2024;LIDL PARIS;45,20;\n"
      env0.timestamp env0.random).transactions.length = 1 := by
    simp [CsvParser.parse, CsvParser.parseRows, CsvParser.scanChars,
      CsvParser.normCRLF, CsvParser.pushRow, CsvParser.pushField,
      CsvParser.parseBody, CsvParser.parseRow, hdate, hdeb, trimChars]
  intro h
  rw [hlen] at h
  exact absurd h.1 one_ne_zero

/-- Store refuting C7 as stated: the account's stored balance (999) disagrees
    with the derived balance (0). -/
def dbW7 : DB :=
  { accounts :=
      [{ id := 1, name := "Compte Principal", currency := "EUR",
         isDefault := true, initialBalance := 0, balance := 999 }],
    transactions := [], batches := [], nextAccountId := 2, nextBatchId := 0 }

/-- **C7 (counterexample)**: a CSV whose only data row has an invalid date
    parses to zero transactions and one error, so `importFromCsv` returns
    early: the database is returned unchanged (no batch, no recalculation) and
    the stored balance (999) still differs from the derived balance (0) after
    the import returns — refuting "every import operation recalculates and
    persists the balance unconditionally". -/
theorem claim_C7_counterexample :
    ∃ r : ImportResult,
      ImportService.importFromCsv dbW7
        "Date;Libelle;Debit;Credit\n99/13/2024;FOO;45,20;\n" "bad.csv"
        env0 = some (dbW7, r) ∧
      r.batchId = 0 ∧ r.imported = 0 ∧ r.errors.length = 1 ∧
      (AccountRepository.findById dbW7 1).map Account.balance = some 999 ∧
      (BalanceCalculator.calculateForAccount dbW7 1).map Money.amount =
        some 0 := by
  have hdate : CsvParser.parseFrenchDate "99/13/2024" = none := by decide
  have hlen : (CsvParser.parse
      "Date;Libelle;Debit;Credit\n99/13/2024;FOO;45,20;\n"
      env0.timestamp env0.random).transactions.length = 0 := by
    simp [CsvParser.parse, CsvParser.parseRows, CsvParser.scanChars,
      CsvParser.normCRLF, CsvParser.pushRow, CsvParser.pushField,
      CsvParser.parseBody, CsvParser.parseRow, hdate, trimChars]
  have herr : (CsvParser.parse
      "Date;Libelle;Debit;Credit\n99/13/2024;FOO;45,20;\n"
      env0.timestamp env0.random).errors.length = 1 := by
    simp [CsvParser.parse, CsvParser.parseRows, CsvParser.scanChars,
      CsvParser.normCRLF, CsvParser.pushRow, CsvParser.pushField,
      CsvParser.parseBody, CsvParser.parseRow, hdate, trimChars]
  refine ⟨{ imported := 0, skipped := 0,
            errors := (CsvParser.parse
              "Date;Libelle;Debit;Credit\n99/13/2024;FOO;45,20;\n"
              env0.timestamp env0.random).errors,
            batchId := 0 }, ?_, rfl, rfl, herr, rfl, ?_⟩
  · simp only [ImportService.importFromCsv]
    rw [if_pos ⟨hlen, by rw [herr]; norm_num⟩]
  · have hc : TransactionRepository.sumByType dbW7 1 .credit = 0 := rfl
    have hd : TransactionRepository.sumByType dbW7 1 .debit = 0 := rfl
    rw [calculateForAccount_eq_some dbW7 1
      { id := 1, name := "Compte Principal", currency := "EUR",
        isDefault := true, initialBalance := 0, balance := 999 } rfl,
      Option.map_some']
    refine congrArg some ?_
    rw [hc, hd]
    rw [abs_zero]
    have h0 : round2 0 = 0 := round2_isCents_eq 0 isCents_zero
    rw [h0]
    norm_num [h0]

/-- An import environment whose persistence-failure oracle never fires. -/
def noFailEnv (ts : Nat) (rnd today : String) : ImportEnv :=
  { timestamp := ts, random := rnd, today := today, createFails := fun _ => false }

/-- The state after the batch/loop stage of the first sync of `td`. -/
def db3First (td : TinkTransactionData) (today : String) : DB :=
  { accounts := [acc0],
    transactions :=
      [TransactionService.toStored 1 0 (TransactionService.tinkToParsed td)],
    batches :=
      [{ id := 0, accountId := 1, filename := "tink_sync_" ++ today,
         status := .completed, rowsImported := 1, rowsSkipped := 0,
         errorMessage := none }],
    nextAccountId := 2, nextBatchId := 1 }

/-- **C3**: The external-feed fingerprint is a deterministic function of
    `(date, amount, description, type)` with no time or random component
    (`forTinkTransaction` takes no timestamp/random arguments, unlike the other
    two modes), so importing the same feed transaction in two successive
    `importFromTink` calls — under arbitrary, possibly different wall-clock
    values — yields `imported = 1, skipped = 0` then `imported = 0,
    skipped = 1` and exactly one stored transaction. -/
theorem claim_C3_idempotent_resync (td : TinkTransactionData) (ts1 ts2 : Nat)
    (r1 r2 today1 today2 : String) :
    ∃ (db1 db2 : DB) (res1 res2 : ImportResult),
      TransactionService.importFromTink db0 1 [td] (noFailEnv ts1 r1 today1) =
        some (db1, res1) ∧
      TransactionService.importFromTink db1 1 [td] (noFailEnv ts2 r2 today2) =
        some (db2, res2) ∧
      res1.imported = 1 ∧ res1.skipped = 0 ∧
      res2.imported = 0 ∧ res2.skipped = 1 ∧
      db2.transactions.length = 1 := by
  have hs1 : TransactionService.importBatchState db0 1
      ("tink_sync_" ++ (noFailEnv ts1 r1 today1).today)
      ([td].map TransactionService.tinkToParsed) (noFailEnv ts1 r1 today1) =
      (db3First td today1, 1, 0, ([] : List String)) := rfl
  have h1 : TransactionService.importFromTink db0 1 [td]
      (noFailEnv ts1 r1 today1) =
      (BalanceCalculator.recalculateForAccount
        (TransactionService.importBatchState db0 1
          ("tink_sync_" ++ (noFailEnv ts1 r1 today1).today)
          ([td].map TransactionService.tinkToParsed)
          (noFailEnv ts1 r1 today1)).1 1).map
        (fun p4 => (p4.1,
          { imported := (TransactionService.importBatchState db0 1
              ("tink_sync_" ++ (noFailEnv ts1 r1 today1).today)
              ([td].map TransactionService.tinkToParsed)
              (noFailEnv ts1 r1 today1)).2.1,
            skipped := (TransactionService.importBatchState db0 1
              ("tink_sync_" ++ (noFailEnv ts1 r1 today1).today)
              ([td].map TransactionService.tinkToParsed)
              (noFailEnv ts1 r1 today1)).2.2.1,
            errors := (TransactionService.importBatchState db0 1
              ("tink_sync_" ++ (noFailEnv ts1 r1 today1).today)
              ([td].map TransactionService.tinkToParsed)
              (noFailEnv ts1 r1 today1)).2.2.2,
            batchId := db0.nextBatchId })) := rfl
  have hopen1 : TransactionService.importFromTink db0 1 [td]
      (noFailEnv ts1 r1 today1) =
      (BalanceCalculator.recalculateForAccount (db3First td today1) 1).map
        (fun p4 => (p4.1,
          { imported := 1, skipped := 0, errors := [], batchId := 0 })) := by
    rw [h1, hs1]
    rfl
  obtain ⟨db1, hrec1, htx1, hbat1, hfind1⟩ :=
    recalculateForAccount_spec (db3First td today1) 1 acc0 rfl
  have heq1 : TransactionService.importFromTink db0 1 [td]
      (noFailEnv ts1 r1 today1) =
      some (db1, { imported := 1, skipped := 0, errors := [], batchId := 0 }) := by
    rw [hopen1, hrec1, Option.map_some']
  -- second call
  have hfbh : TransactionRepository.findByHash
      (ImportBatchRepository.createBatch db1 1
        ("tink_sync_" ++ (noFailEnv ts2 r2 today2).today) .processing).1
      (TransactionService.tinkToParsed td).hash =
      some (TransactionService.toStored 1 0 (TransactionService.tinkToParsed td)) := by
    unfold TransactionRepository.findByHash
    show db1.transactions.find?
      (fun tx => tx.hash == (TransactionService.tinkToParsed td).hash) = _
    rw [htx1]
    show List.find?
      (fun tx => tx.hash == (TransactionService.tinkToParsed td).hash)
      [TransactionService.toStored 1 0 (TransactionService.tinkToParsed td)] = _
    apply List.find?_cons_of_pos
    simp [TransactionService.toStored]
  have hrun2 : TransactionService.runImport (noFailEnv ts2 r2 today2) 1
      db1.nextBatchId
      (ImportBatchRepository.createBatch db1 1
        ("tink_sync_" ++ (noFailEnv ts2 r2 today2).today) .processing).1
      0 0 0 [] [TransactionService.tinkToParsed td] =
      ((ImportBatchRepository.createBatch db1 1
        ("tink_sync_" ++ (noFailEnv ts2 r2 today2).today) .processing).1,
        0, 1, ([] : List String)) := by
    simp only [TransactionService.runImport, hfbh]
  have hs2 : TransactionService.importBatchState db1 1
      ("tink_sync_" ++ (noFailEnv ts2 r2 today2).today)
      ([td].map TransactionService.tinkToParsed) (noFailEnv ts2 r2 today2) =
      (ImportBatchRepository.markCompleted
        (ImportBatchRepository.createBatch db1 1
          ("tink_sync_" ++ (noFailEnv ts2 r2 today2).today) .processing).1
        db1.nextBatchId 0 1, 0, 1, ([] : List String)) := by
    show (ImportBatchRepository.markCompleted
      (TransactionService.runImport (noFailEnv ts2 r2 today2) 1 db1.nextBatchId
        (ImportBatchRepository.createBatch db1 1
          ("tink_sync_" ++ (noFailEnv ts2 r2 today2).today) .processing).1
        0 0 0 [] [TransactionService.tinkToParsed td]).1
      db1.nextBatchId
      (TransactionService.runImport (noFailEnv ts2 r2 today2) 1 db1.nextBatchId
        (ImportBatchRepository.createBatch db1 1
          ("tink_sync_" ++ (noFailEnv ts2 r2 today2).today) .processing).1
        0 0 0 [] [TransactionService.tinkToParsed td]).2.1
      (TransactionService.runImport (noFailEnv ts2 r2 today2) 1 db1.nextBatchId
        (ImportBatchRepository.createBatch db1 1
          ("tink_sync_" ++ (noFailEnv ts2 r2 today2).today) .processing).1
        0 0 0 [] [TransactionService.tinkToParsed td]).2.2.1,
      (TransactionService.runImport (noFailEnv ts2 r2 today2) 1 db1.nextBatchId
        (ImportBatchRepository.createBatch db1 1
          ("tink_sync_" ++ (noFailEnv ts2 r2 today2).today) .processing).1
        0 0 0 [] [TransactionService.tinkToParsed td]).2) = _
    rw [hrun2]
  have hacc2 : AccountRepository.findById
      (ImportBatchRepository.markCompleted
        (ImportBatchRepository.createBatch db1 1
          ("tink_sync_" ++ (noFailEnv ts2 r2 today2).today) .processing).1
        db1.nextBatchId 0 1) 1 =
      some { acc0 with balance := round2 (round2 (round2 acc0.initialBalance +
        round2 (TransactionRepository.sumByType (db3First td today1) 1 .credit)) -
        round2 |TransactionRepository.sumByType (db3First td today1) 1 .debit|) } := by
    rw [findById_congr
      (ImportBatchRepository.markCompleted
        (ImportBatchRepository.createBatch db1 1
          ("tink_sync_" ++ (noFailEnv ts2 r2 today2).today) .processing).1
        db1.nextBatchId 0 1)
      db1 1 rfl]
    exact hfind1
  obtain ⟨db2, hrec2, htx2, hbat2, hfind2⟩ :=
    recalculateForAccount_spec _ 1 _ hacc2
  have h2 : TransactionService.importFromTink db1 1 [td]
      (noFailEnv ts2 r2 today2) =
      (BalanceCalculator.recalculateForAccount
        (TransactionService.importBatchState db1 1
          ("tink_sync_" ++ (noFailEnv ts2 r2 today2).today)
          ([td].map TransactionService.tinkToParsed)
          (noFailEnv ts2 r2 today2)).1 1).map
        (fun p4 => (p4.1,
          { imported := (TransactionService.importBatchState db1 1
              ("tink_sync_" ++ (noFailEnv ts2 r2 today2).today)
              ([td].map TransactionService.tinkToParsed)
              (noFailEnv ts2 r2 today2)).2.1,
            skipped := (TransactionService.importBatchState db1 1
              ("tink_sync_" ++ (noFailEnv ts2 r2 today2).today)
              ([td].map TransactionService.tinkToParsed)
              (noFailEnv ts2 r2 today2)).2.2.1,
            errors := (TransactionService.importBatchState db1 1
              ("tink_sync_" ++ (noFailEnv ts2 r2 today2).today)
              ([td].map TransactionService.tinkToParsed)
              (noFailEnv ts2 r2 today2)).2.2.2,
            batchId := db1.nextBatchId })) := rfl
  have heq2 : TransactionService.importFromTink db1 1 [td]
      (noFailEnv ts2 r2 today2) =
      some (db2, { imported := 0, skipped := 1, errors := [],
                   batchId := db1.nextBatchId }) := by
    rw [h2, hs2]
    show (BalanceCalculator.recalculateForAccount
        (ImportBatchRepository.markCompleted
          (ImportBatchRepository.createBatch db1 1
            ("tink_sync_" ++ (noFailEnv ts2 r2 today2).today) .processing).1
          db1.nextBatchId 0 1) 1).map
      (fun p4 => (p4.1,
        ({ imported := 0, skipped := 1, errors := [],
           batchId := db1.nextBatchId } : ImportResult))) = _
    rw [hrec2, Option.map_some']
  refine ⟨db1, db2, _, _, heq1, heq2, rfl, rfl, rfl, rfl, ?_⟩
  rw [htx2]
  show db1.transactions.length = 1
  rw [htx1]
  rfl

/-! ## Tokenizer lemmas -/

/-- Inside quotes, a non-quote character is appended to the current field —
    also when it is the `;` delimiter or a newline. -/
theorem scanChars_quoted_char (st : CsvParser.ScanState) (c : Char)
    (cs : List Char) (h : st.inQuotes = true) (hc : ¬(c = '"')) :
    CsvParser.scanChars st (c :: cs) =
      CsvParser.scanChars { st with currentField := st.currentField ++ [c] } cs := by
  rcases cs with _ | ⟨c2, cs⟩
  · rw [CsvParser.scanChars.eq_3 st c [] (fun r2 hh => by cases hh),
      if_pos h, if_neg hc]
  · by_cases h2 : c2 = '"'
    · subst h2
      rw [CsvParser.scanChars.eq_2, if_pos h, if_neg hc]
    · rw [CsvParser.scanChars.eq_3 st c (c2 :: cs)
        (fun r2 hh => by injection hh with hh1 _; exact h2 hh1),
        if_pos h, if_neg hc]

/-- Outside quotes, a `"` enters the in-quotes state. -/
theorem scanChars_enter (st : CsvParser.ScanState) (cs : List Char)
    (h : st.inQuotes = false) :
    CsvParser.scanChars st ('"' :: cs) =
      CsvParser.scanChars { st with inQuotes := true } cs := by
  rcases cs with _ | ⟨c2, cs⟩
  · rw [CsvParser.scanChars.eq_3 st '"' [] (fun r2 hh => by cases hh),
      if_neg (by simp [h]), if_pos rfl]
  · by_cases h2 : c2 = '"'
    · subst h2
      rw [CsvParser.scanChars.eq_2, if_neg (by simp [h]), if_pos rfl]
    · rw [CsvParser.scanChars.eq_3 st '"' (c2 :: cs)
        (fun r2 hh => by injection hh with hh1 _; exact h2 hh1),
        if_neg (by simp [h]), if_pos rfl]

/-- Inside quotes, `""` appends one literal quote character. -/
theorem scanChars_escaped_quote (st : CsvParser.ScanState) (cs : List Char)
    (h : st.inQuotes = true) :
    CsvParser.scanChars st ('"' :: '"' :: cs) =
      CsvParser.scanChars
        { st with currentField := st.currentField ++ ['"'] } cs := by
  rw [CsvParser.scanChars.eq_2, if_pos h, if_pos rfl]

/-- Inside quotes, a `"` not followed by another `"` ends the quoted region. -/
theorem scanChars_exit_before_nl (st : CsvParser.ScanState) (cs : List Char)
    (h : st.inQuotes = true) :
    CsvParser.scanChars st ('"' :: '\n' :: cs) =
      CsvParser.scanChars { st with inQuotes := false } ('\n' :: cs) := by
  rw [CsvParser.scanChars.eq_3 st '"' ('\n' :: cs)
    (fun r2 hh => by injection hh with hh1 _; exact absurd hh1 (by decide)),
    if_pos h, if_pos rfl]

/-- Outside quotes, a final newline emits the pending row. -/
theorem scanChars_nl_end (st : CsvParser.ScanState) (h : st.inQuotes = false) :
    CsvParser.scanChars st ['\n'] = CsvParser.pushRow st := by
  rw [CsvParser.scanChars.eq_3 st '\n' [] (fun r2 hh => by cases hh),
    if_neg (by simp [h]), if_neg (by decide), if_neg (by decide), if_pos rfl,
    CsvParser.scanChars.eq_1]

/-- Inside quotes, a quote-free run is appended verbatim to the current field:
    delimiters and newlines in it do not end the field or the row. -/
theorem scanChars_quoted_run (f : List Char) :
    ∀ (st : CsvParser.ScanState) (rest : List Char),
      st.inQuotes = true → '"' ∉ f →
      CsvParser.scanChars st (f ++ rest) =
        CsvParser.scanChars
          { st with currentField := st.currentField ++ f } rest := by
  induction f with
  | nil =>
    intro st rest h hq
    simp
  | cons c f ih =>
    intro st rest h hq
    have hc : ¬(c = '"') := fun hc => hq (by simp [hc])
    rw [List.cons_append, scanChars_quoted_char st c (f ++ rest) h hc]
    rw [ih { st with currentField := st.currentField ++ [c] } rest h
      (fun hf => hq (by simp [hf]))]
    simp [List.append_assoc]

/-- C8: in the tokenizer, a double-quoted field may contain the `;` delimiter
    and embedded newlines. (a) For any quote-free field content `f` (which may
    contain `;` and `\n`), the input `"f"\n` is tokenized as a single row with
    the single field `trim f` — a quoted field spanning multiple physical lines
    is never split into two rows. (b) A doubled quote `""` inside a quoted
    field yields one literal `"` character in the field value. -/
theorem claim_C8_quoted_fields (f g : List Char)
    (hf : '"' ∉ f) (hg : '"' ∉ g)
    (hne : trimChars f ≠ []) (hne2 : trimChars (f ++ '"' :: g) ≠ []) :
    CsvParser.parseRows (String.mk ('"' :: (f ++ ['"', '\n']))) =
      [[String.mk (trimChars f)]] ∧
    CsvParser.parseRows
        (String.mk ('"' :: (f ++ '"' :: '"' :: (g ++ ['"', '\n'])))) =
      [[String.mk (trimChars (f ++ '"' :: g))]] := by
  constructor
  · have h1 : CsvParser.scanChars ⟨[], [], [], false⟩ ('"' :: (f ++ ['"', '\n']))
        = CsvParser.scanChars ⟨[], [], [], true⟩ (f ++ ['"', '\n']) :=
      scanChars_enter ⟨[], [], [], false⟩ (f ++ ['"', '\n']) rfl
    have h2 : CsvParser.scanChars ⟨[], [], [], true⟩ (f ++ ['"', '\n'])
        = CsvParser.scanChars ⟨[], [], f, true⟩ ['"', '\n'] := by
      have h := scanChars_quoted_run f ⟨[], [], [], true⟩ ['"', '\n'] rfl hf
      simpa using h
    have h3 : CsvParser.scanChars ⟨[], [], f, true⟩ ['"', '\n']
        = CsvParser.scanChars ⟨[], [], f, false⟩ ['\n'] :=
      scanChars_exit_before_nl ⟨[], [], f, true⟩ [] rfl
    have h4 : CsvParser.scanChars ⟨[], [], f, false⟩ ['\n']
        = CsvParser.pushRow ⟨[], [], f, false⟩ :=
      scanChars_nl_end ⟨[], [], f, false⟩ rfl
    have hlen : 0 < (trimChars f).length := List.length_pos.mpr hne
    simp only [CsvParser.parseRows, h1, h2, h3, h4]
    simp [CsvParser.pushRow, CsvParser.pushField, hlen]
  · have h1 : CsvParser.scanChars ⟨[], [], [], false⟩
          ('"' :: (f ++ '"' :: '"' :: (g ++ ['"', '\n'])))
        = CsvParser.scanChars ⟨[], [], [], true⟩
            (f ++ '"' :: '"' :: (g ++ ['"', '\n'])) :=
      scanChars_enter ⟨[], [], [], false⟩ (f ++ '"' :: '"' :: (g ++ ['"', '\n']))
        rfl
    have h2 : CsvParser.scanChars ⟨[], [], [], true⟩
          (f ++ '"' :: '"' :: (g ++ ['"', '\n']))
        = CsvParser.scanChars ⟨[], [], f, true⟩
            ('"' :: '"' :: (g ++ ['"', '\n'])) := by
      have h := scanChars_quoted_run f ⟨[], [], [], true⟩
        ('"' :: '"' :: (g ++ ['"', '\n'])) rfl hf
      simpa using h
    have h3 : CsvParser.scanChars ⟨[], [], f, true⟩
          ('"' :: '"' :: (g ++ ['"', '\n']))
        = CsvParser.scanChars ⟨[], [], f ++ ['"'], true⟩ (g ++ ['"', '\n']) :=
      scanChars_escaped_quote ⟨[], [], f, true⟩ (g ++ ['"', '\n']) rfl
    have h4 : CsvParser.scanChars ⟨[], [], f ++ ['"'], true⟩ (g ++ ['"', '\n'])
        = CsvParser.scanChars ⟨[], [], f ++ '"' :: g, true⟩ ['"', '\n'] := by
      have h := scanChars_quoted_run g ⟨[], [], f ++ ['"'], true⟩ ['"', '\n']
        rfl hg
      simpa using h
    have h5 : CsvParser.scanChars ⟨[], [], f ++ '"' :: g, true⟩ ['"', '\n']
        = CsvParser.scanChars ⟨[], [], f ++ '"' :: g, false⟩ ['\n'] :=
      scanChars_exit_before_nl ⟨[], [], f ++ '"' :: g, true⟩ [] rfl
    have h6 : CsvParser.scanChars ⟨[], [], f ++ '"' :: g, false⟩ ['\n']
        = CsvParser.pushRow ⟨[], [], f ++ '"' :: g, false⟩ :=
      scanChars_nl_end ⟨[], [], f ++ '"' :: g, false⟩ rfl
    have hlen : 0 < (trimChars (f ++ '"' :: g)).length := List.length_pos.mpr hne2
    simp only [CsvParser.parseRows, h1, h2, h3, h4, h5, h6]
    simp [CsvParser.pushRow, CsvParser.pushField, hlen]

/-- Witness for C8 at the spec's own example: the quoted multiline field
    `"LOYER\nAPPARTEMENT"` is one field of one row, and `""` inside quotes
    escapes a literal quote. -/
theorem claim_C8_quoted_fields_witness :
    ('"' ∉ "LOYER\nAPPARTEMENT".data ∧ '"' ∉ "B".data ∧
      trimChars "LOYER\nAPPARTEMENT".data ≠ [] ∧
      trimChars ("LOYER\nAPPARTEMENT".data ++ '"' :: "B".data) ≠ []) ∧
    (CsvParser.parseRows
        (String.mk ('"' :: ("LOYER\nAPPARTEMENT".data ++ ['"', '\n']))) =
      [[String.mk (trimChars "LOYER\nAPPARTEMENT".data)]] ∧
    CsvParser.parseRows
        (String.mk ('"' :: ("LOYER\nAPPARTEMENT".data ++ '"' :: '"' ::
          ("B".data ++ ['"', '\n'])))) =
      [[String.mk (trimChars ("LOYER\nAPPARTEMENT".data ++ '"' :: "B".data))]]) :=
  ⟨⟨by decide, by decide, by decide, by decide⟩,
    claim_C8_quoted_fields "LOYER\nAPPARTEMENT".data "B".data
      (by decide) (by decide) (by decide) (by decide)⟩

end ForecastPro
